import Mathlib

/-!
# Family-Investment-Ledger: lot-rebuild engine, shallow embedding

This file embeds the `rebuildLots` engine of `src/Code.js` (and the small
helpers it uses) as executable Lean definitions and proves the spec's
testable properties about them.

Modelling conventions:
* JavaScript numbers are modelled by `ℚ` (the engine performs only field
  arithmetic on them); dates are modelled by `Int` (milliseconds since
  epoch, which is what `new Date(x) - new Date(y)` compares).
* The in-place mutation of lot objects through references captured by
  `openLotsBySecurity` is modelled by an update list keyed by `LotId`
  (ids are generated from the strictly increasing `lotSeq` counter).
* A thrown JS `TypeError` (reading `.AssetId` of `undefined` when a
  security is absent from the directory) is modelled by `Except.error`;
  the engine's writes happen only after the full replay, so an error
  means no output is committed.
* `Number(x)` of a non-numeric cell yields `NaN` and does *not* throw;
  the separate raw-value model `buyRaw` below captures this with
  `Option ℚ` (`none` = NaN).
-/

/-- A row of the `Securities` table (only the fields the engine reads). -/
structure Security where
  SecurityId : String
  AssetId : String
  deriving Repr, DecidableEq

/-- The eight event type tags dispatched on by `rebuildLots`. -/
inductive EType where
  | BUY | SELL | SPLIT | BONUS | MERGER | CLASS_REORG | GIFT | TRANSFER
  deriving Repr, DecidableEq

/-- The payload carried by an event (`e.Data` in the source): the union of
the `Trades` and `LotActions` columns the mutation rules read.  JS objects
are duck-typed, so one record with all fields is the faithful model; a
field not present on the underlying row is simply never read. -/
structure EvData where
  TradeId : String := ""
  TradeDate : Int := 0
  ActionDate : Int := 0
  OwnerId : String := ""
  OwnerFromId : String := ""
  OwnerToId : String := ""
  BrokerId : String := ""
  BrokerToId : String := ""
  AccountId : String := ""
  AccountToId : String := ""
  SecurityId : String := ""
  SecurityToId : String := ""
  Side : EType := .BUY
  ActionType : EType := .SPLIT
  Quantity : ℚ := 0
  Price : ℚ := 0
  FXRateToINR : ℚ := 0
  SplitNumerator : ℚ := 0
  SplitDenominator : ℚ := 0
  deriving Repr, DecidableEq

/-- A normalized event (`{ Type, Date, Data }` in the source). -/
structure Event where
  Typ : EType
  Date : Int
  Data : EvData
  deriving Repr, DecidableEq

/-- A lot record, exactly the fields pushed by the engine. -/
structure Lot where
  LotId : Nat
  OwnerId : String
  SecurityId : String
  AssetId : String
  BuyDate : Int
  OpenQty : ℚ
  CostNative : ℚ
  CostPriceNative : ℚ
  CostINR : ℚ
  BuyFXRate : ℚ
  BrokerId : String
  AccountId : String
  deriving Repr, DecidableEq

/-- A `ConsumptionRecord`, exactly the fields pushed by the SELL rule. -/
structure Consume where
  ConsumeId : Nat
  TradeId : String
  OwnerId : String
  SecurityId : String
  AssetId : String
  LotId : Nat
  BuyDate : Int
  SellDate : Int
  Quantity : ℚ
  CostNative : ℚ
  CostPriceNative : ℚ
  CostINR : ℚ
  CostFXRate : ℚ
  SalePriceNative : ℚ
  SaleFXRate : ℚ
  ProceedsNative : ℚ
  ProceedsINR : ℚ
  deriving Repr, DecidableEq

/-- The engine's mutable state: the lot store, the consumption ledger and
the two id counters. -/
structure RState where
  lots : List Lot
  consumes : List Consume
  lotSeq : Nat
  consumeSeq : Nat
  deriving Repr, DecidableEq

/-- `secs[id]` for the directory built by `Object.fromEntries`; the input
directory is assumed duplicate-key-free (with duplicates `fromEntries`
keeps the last entry, which `find?` would not; no claim depends on it). -/
def secFind (secs : List Security) (id : String) : Option Security :=
  secs.find? (fun sec => sec.SecurityId == id)

/-- FIFO ordering on lots used by the `.sort` in `openLotsBySecurity`:
ascending `BuyDate`. -/
def lotLe (a b : Lot) : Prop := a.BuyDate ≤ b.BuyDate

instance : DecidableRel lotLe := fun a b => by unfold lotLe; exact inferInstance

instance : IsTotal Lot lotLe := ⟨fun a b => Int.le_total a.BuyDate b.BuyDate⟩

instance : IsTrans Lot lotLe := ⟨fun _ _ _ h h' => le_trans h h'⟩

/-- `openLotsBySecurity(owner, securityId)` (src/Code.js:22-26): the open
lots of that owner and security, FIFO-sorted by acquisition date.
JS `Array.prototype.sort` is stable, as is `List.insertionSort`. -/
def openLotsBySecurity (lots : List Lot) (owner securityId : String) : List Lot :=
  List.insertionSort lotLe
    (lots.filter fun l =>
      decide (l.OwnerId = owner ∧ l.SecurityId = securityId ∧ l.OpenQty > 0))

/-- Apply the recorded in-place mutations: each lot whose id has an entry
in `us` is replaced by the updated object. -/
def applyUpdates (lots : List Lot) (us : List (Nat × Lot)) : List Lot :=
  lots.map fun l =>
    match us.find? (fun u => u.1 == l.LotId) with
    | some u => u.2
    | none => l

/-- `Number(d.SplitNumerator) || 1`: a zero (or missing, here excluded by
well-formed payloads) value falls back to `1`. -/
def orOne (q : ℚ) : ℚ := if q = 0 then 1 else q

/-- The BUY rule (src/Code.js:49-68). -/
def stepBuy (secs : List Security) (s : RState) (d : EvData) : Except String RState :=
  match secFind secs d.SecurityId with
  | none => .error ("TypeError: security " ++ d.SecurityId ++ " not in directory")
  | some sec =>
    let qty := d.Quantity
    let price := d.Price
    let fx := d.FXRateToINR
    let lot : Lot :=
      { LotId := s.lotSeq
        OwnerId := d.OwnerId
        SecurityId := d.SecurityId
        AssetId := sec.AssetId
        BuyDate := d.TradeDate
        OpenQty := qty
        CostNative := qty * price
        CostPriceNative := price
        CostINR := qty * price * fx
        BuyFXRate := fx
        BrokerId := d.BrokerId
        AccountId := d.AccountId }
    .ok { s with lots := s.lots ++ [lot], lotSeq := s.lotSeq + 1 }

/-- The in-place cost mutation CLASS_REORG applies to each source lot
(src/Code.js:116-119); the guard mirrors the `sourceLots` filter. -/
def reorgMutate (fromAssetId fromSec : String) (costRatioOriginal : ℚ) (l : Lot) : Lot :=
  if l.AssetId = fromAssetId ∧ l.SecurityId = fromSec ∧ l.OpenQty > 0 then
    let cn := l.CostNative * costRatioOriginal
    let ci := l.CostINR * costRatioOriginal
    { l with CostNative := cn, CostINR := ci,
             CostPriceNative := if l.OpenQty > 0 then cn / l.OpenQty else 0 }
  else l

/-- The new-lot spawning loop of CLASS_REORG (src/Code.js:95-114), over the
snapshot of source lots, threading `lotSeq`. -/
def reorgSpawn (toSec toAssetId : String) (qtyRatio costRatioNew : ℚ) :
    List Lot → Nat → List Lot × Nat
  | [], seq => ([], seq)
  | lot :: rest, seq =>
    let newQty := lot.OpenQty * qtyRatio
    let newCostNative := lot.CostNative * costRatioNew
    let newCostINR := lot.CostINR * costRatioNew
    let nl : Lot :=
      { LotId := seq
        OwnerId := lot.OwnerId
        SecurityId := toSec
        AssetId := toAssetId
        BuyDate := lot.BuyDate
        OpenQty := newQty
        CostNative := newCostNative
        CostPriceNative := if newQty > 0 then newCostNative / newQty else 0
        CostINR := newCostINR
        BuyFXRate := lot.BuyFXRate
        BrokerId := lot.BrokerId
        AccountId := lot.AccountId }
    let r := reorgSpawn toSec toAssetId qtyRatio costRatioNew rest (seq + 1)
    (nl :: r.1, r.2)

/-- The CLASS_REORG rule (src/Code.js:73-121). -/
def stepClassReorg (secs : List Security) (s : RState) (d : EvData) : Except String RState :=
  match secFind secs d.SecurityId with
  | none => .error ("TypeError: security " ++ d.SecurityId ++ " not in directory")
  | some fromRec =>
    match secFind secs d.SecurityToId with
    | none => .error ("TypeError: security " ++ d.SecurityToId ++ " not in directory")
    | some toRec =>
      let numerator := orOne d.SplitNumerator
      let denominator := orOne d.SplitDenominator
      let qtyRatio := numerator / denominator
      let costRatioNew := qtyRatio / (1 + qtyRatio)
      let costRatioOriginal := 1 - costRatioNew
      let sourceLots := s.lots.filter fun l =>
        decide (l.AssetId = fromRec.AssetId ∧ l.SecurityId = d.SecurityId ∧ l.OpenQty > 0)
      let r := reorgSpawn d.SecurityToId toRec.AssetId qtyRatio costRatioNew sourceLots s.lotSeq
      .ok { s with
              lots := (s.lots.map (reorgMutate fromRec.AssetId d.SecurityId costRatioOriginal)) ++ r.1,
              lotSeq := r.2 }

/-- The FIFO consumption loop of SELL (src/Code.js:131-170): walks the
precomputed queue, returning the per-lot updates, the appended
consumption records and the advanced `consumeSeq`. -/
def sellLoop (d : EvData) (assetId : String) :
    List Lot → ℚ → Nat → List (Nat × Lot) × List Consume × Nat
  | [], _, cseq => ([], [], cseq)
  | lot :: rest, qty, cseq =>
    if qty ≤ 0 then ([], [], cseq)
    else
      let used := min lot.OpenQty qty
      let frac := used / lot.OpenQty
      let costNativeUsed := lot.CostNative * frac
      let costINRUsed := lot.CostINR * frac
      let proceedsNative := used * d.Price
      let proceedsINR := proceedsNative * d.FXRateToINR
      let c : Consume :=
        { ConsumeId := cseq
          TradeId := d.TradeId
          OwnerId := d.OwnerId
          SecurityId := d.SecurityId
          AssetId := assetId
          LotId := lot.LotId
          BuyDate := lot.BuyDate
          SellDate := d.TradeDate
          Quantity := used
          CostNative := costNativeUsed
          CostPriceNative := lot.CostPriceNative
          CostINR := costINRUsed
          CostFXRate := lot.BuyFXRate
          SalePriceNative := d.Price
          SaleFXRate := d.FXRateToINR
          ProceedsNative := proceedsNative
          ProceedsINR := proceedsINR }
      let lot' : Lot :=
        { lot with OpenQty := lot.OpenQty - used,
                   CostNative := lot.CostNative - costNativeUsed,
                   CostINR := lot.CostINR - costINRUsed }
      let r := sellLoop d assetId rest (qty - used) (cseq + 1)
      ((lot.LotId, lot') :: r.1, c :: r.2.1, r.2.2)

/-- The SELL rule (src/Code.js:124-171). -/
def stepSell (secs : List Security) (s : RState) (d : EvData) : Except String RState :=
  match secFind secs d.SecurityId with
  | none => .error ("TypeError: security " ++ d.SecurityId ++ " not in directory")
  | some sec =>
    let queue := openLotsBySecurity s.lots d.OwnerId d.SecurityId
    let r := sellLoop d sec.AssetId queue d.Quantity s.consumeSeq
    .ok { s with lots := applyUpdates s.lots r.1,
                 consumes := s.consumes ++ r.2.1,
                 consumeSeq := r.2.2 }

/-- The per-lot mutation of SPLIT (src/Code.js:176-181). -/
def splitLot (factor : ℚ) (secId : String) (l : Lot) : Lot :=
  if l.SecurityId = secId ∧ l.OpenQty > 0 then
    { l with OpenQty := l.OpenQty * factor, CostPriceNative := l.CostPriceNative / factor }
  else l

/-- The SPLIT rule (src/Code.js:174-182); note it performs no security
directory lookup. -/
def stepSplit (s : RState) (d : EvData) : Except String RState :=
  let factor := d.SplitNumerator / d.SplitDenominator
  .ok { s with lots := s.lots.map (splitLot factor d.SecurityId) }

/-- The bonus-lot spawning loop of BONUS (src/Code.js:200-221) over the
snapshot of open lots of the named security; `lotSeq` advances only when a
lot is actually spawned. -/
def bonusSpawn (d : EvData) (assetId : String) (factor : ℚ) :
    List Lot → Nat → List Lot × Nat
  | [], seq => ([], seq)
  | l :: rest, seq =>
    let bonusQty := l.OpenQty * (factor - 1)
    if bonusQty > 0 then
      let nl : Lot :=
        { LotId := seq
          OwnerId := l.OwnerId
          SecurityId := l.SecurityId
          AssetId := assetId
          BuyDate := d.ActionDate
          OpenQty := bonusQty
          CostNative := 0
          CostPriceNative := 0
          CostINR := 0
          BuyFXRate := l.BuyFXRate
          BrokerId := l.BrokerId
          AccountId := l.AccountId }
      let r := bonusSpawn d assetId factor rest (seq + 1)
      (nl :: r.1, r.2)
    else bonusSpawn d assetId factor rest seq

/-- The BONUS rule (src/Code.js:190-222). -/
def stepBonus (secs : List Security) (s : RState) (d : EvData) : Except String RState :=
  match secFind secs d.SecurityId with
  | none => .error ("TypeError: security " ++ d.SecurityId ++ " not in directory")
  | some sec =>
    let factor := d.SplitNumerator / d.SplitDenominator
    let lotsToProcess := s.lots.filter fun l =>
      decide (l.SecurityId = d.SecurityId ∧ l.OpenQty > 0)
    let r := bonusSpawn d sec.AssetId factor lotsToProcess s.lotSeq
    .ok { s with lots := s.lots ++ r.1, lotSeq := r.2 }

/-- The per-lot mutation of MERGER (src/Code.js:232-243).  The per-share
cost is recomputed as `CostNative / newQty` with no guard; `newQty` is the
floored converted quantity.  (In `ℚ` a zero divisor yields `0` where JS
yields `Infinity`/`NaN`; `mergerHitsZeroDivisor` below detects exactly
when that unguarded division by zero happens.) -/
def mergerLot (ratio : ℚ) (fromSec toSec toAssetId : String) (l : Lot) : Lot :=
  if l.SecurityId = fromSec ∧ l.OpenQty > 0 then
    let newQty : ℚ := (⌊l.OpenQty * ratio⌋ : ℤ)
    { l with SecurityId := toSec, AssetId := toAssetId,
             CostPriceNative := l.CostNative / newQty,
             OpenQty := newQty }
  else l

/-- The MERGER rule (src/Code.js:226-244); only the *target* security is
resolved through the directory. -/
def stepMerger (secs : List Security) (s : RState) (d : EvData) : Except String RState :=
  match secFind secs d.SecurityToId with
  | none => .error ("TypeError: security " ++ d.SecurityToId ++ " not in directory")
  | some toRec =>
    let ratio := d.SplitNumerator / d.SplitDenominator
    .ok { s with lots := s.lots.map (mergerLot ratio d.SecurityId d.SecurityToId toRec.AssetId) }

/-- The divisor of the MERGER per-share recomputation is zero for some
affected lot: the source line `l.CostPriceNative = l.CostNative / newQty`
divides by zero exactly when this holds. -/
def mergerHitsZeroDivisor (d : EvData) (lots : List Lot) : Prop :=
  ∃ l ∈ lots, l.SecurityId = d.SecurityId ∧ l.OpenQty > 0 ∧
    ⌊l.OpenQty * (d.SplitNumerator / d.SplitDenominator)⌋ = 0

instance (d : EvData) (lots : List Lot) : Decidable (mergerHitsZeroDivisor d lots) := by
  unfold mergerHitsZeroDivisor; exact inferInstance

/-- The FIFO moving loop of GIFT (src/Code.js:252-280): spawns a
destination lot per consumed source lot and records the source mutation. -/
def giftLoop (d : EvData) (assetId : String) :
    List Lot → ℚ → Nat → List (Nat × Lot) × List Lot × Nat
  | [], _, seq => ([], [], seq)
  | lot :: rest, qty, seq =>
    if qty ≤ 0 then ([], [], seq)
    else
      let move := min lot.OpenQty qty
      let frac := move / lot.OpenQty
      let costNativeMove := lot.CostNative * frac
      let costINRMove := lot.CostINR * frac
      let nl : Lot :=
        { LotId := seq
          OwnerId := d.OwnerToId
          SecurityId := lot.SecurityId
          AssetId := assetId
          BuyDate := lot.BuyDate
          OpenQty := move
          CostNative := costNativeMove
          CostPriceNative := lot.CostPriceNative
          CostINR := costINRMove
          BuyFXRate := lot.BuyFXRate
          BrokerId := d.BrokerToId
          AccountId := d.AccountToId }
      let lot' : Lot :=
        { lot with OpenQty := lot.OpenQty - move,
                   CostNative := lot.CostNative - costNativeMove,
                   CostINR := lot.CostINR - costINRMove }
      let r := giftLoop d assetId rest (qty - move) (seq + 1)
      ((lot.LotId, lot') :: r.1, nl :: r.2.1, r.2.2)

/-- The GIFT rule (src/Code.js:247-281). -/
def stepGift (secs : List Security) (s : RState) (d : EvData) : Except String RState :=
  match secFind secs d.SecurityId with
  | none => .error ("TypeError: security " ++ d.SecurityId ++ " not in directory")
  | some sec =>
    let queue := openLotsBySecurity s.lots d.OwnerFromId d.SecurityId
    let r := giftLoop d sec.AssetId queue d.Quantity s.lotSeq
    .ok { s with lots := applyUpdates s.lots r.1 ++ r.2.1, lotSeq := r.2.2 }

/-- The FIFO moving loop of TRANSFER (src/Code.js:289-324): a partial move
spawns a destination lot, a full move retags the source lot in place. -/
def transferLoop (d : EvData) (assetId : String) :
    List Lot → ℚ → Nat → List (Nat × Lot) × List Lot × Nat
  | [], _, seq => ([], [], seq)
  | lot :: rest, qty, seq =>
    if qty ≤ 0 then ([], [], seq)
    else
      let move := min lot.OpenQty qty
      let frac := move / lot.OpenQty
      if move < lot.OpenQty then
        let costNativeMove := lot.CostNative * frac
        let costINRMove := lot.CostINR * frac
        let nl : Lot :=
          { LotId := seq
            OwnerId := d.OwnerToId
            SecurityId := lot.SecurityId
            AssetId := assetId
            BuyDate := lot.BuyDate
            OpenQty := move
            CostNative := costNativeMove
            CostPriceNative := lot.CostPriceNative
            CostINR := costINRMove
            BuyFXRate := lot.BuyFXRate
            BrokerId := d.BrokerToId
            AccountId := d.AccountToId }
        let lot' : Lot :=
          { lot with OpenQty := lot.OpenQty - move,
                     CostNative := lot.CostNative - costNativeMove,
                     CostINR := lot.CostINR - costINRMove }
        let r := transferLoop d assetId rest (qty - move) (seq + 1)
        ((lot.LotId, lot') :: r.1, nl :: r.2.1, r.2.2)
      else
        let lot' : Lot :=
          { lot with OwnerId := d.OwnerToId,
                     BrokerId := d.BrokerToId,
                     AccountId := d.AccountToId }
        let r := transferLoop d assetId rest (qty - move) seq
        ((lot.LotId, lot') :: r.1, r.2.1, r.2.2)

/-- The TRANSFER rule (src/Code.js:284-325). -/
def stepTransfer (secs : List Security) (s : RState) (d : EvData) : Except String RState :=
  match secFind secs d.SecurityId with
  | none => .error ("TypeError: security " ++ d.SecurityId ++ " not in directory")
  | some sec =>
    let queue := openLotsBySecurity s.lots d.OwnerFromId d.SecurityId
    let r := transferLoop d sec.AssetId queue d.Quantity s.lotSeq
    .ok { s with lots := applyUpdates s.lots r.1 ++ r.2.1, lotSeq := r.2.2 }

/-- Dispatch on the event tag (the cascade of `if (e.Typ === ...)` blocks
in src/Code.js:45-326; exactly one fires per event). -/
def stepEvent (secs : List Security) (s : RState) (e : Event) : Except String RState :=
  match e.Typ with
  | .BUY => stepBuy secs s e.Data
  | .CLASS_REORG => stepClassReorg secs s e.Data
  | .SELL => stepSell secs s e.Data
  | .SPLIT => stepSplit s e.Data
  | .BONUS => stepBonus secs s e.Data
  | .MERGER => stepMerger secs s e.Data
  | .GIFT => stepGift secs s e.Data
  | .TRANSFER => stepTransfer secs s e.Data

/-- Replay of the event sequence (`events.forEach` in the source); a
thrown error aborts the whole replay. -/
def runEvents (secs : List Security) (s : RState) : List Event → Except String RState
  | [] => .ok s
  | e :: es =>
    match stepEvent secs s e with
    | .ok s' => runEvents secs s' es
    | .error m => .error m

/-- The fixed type-priority table (src/Code.js:42).  `CLASS_REORG` has no
entry in the JS object (`order["CLASS_REORG"]` is `undefined`). -/
def evOrder : EType → Option Nat
  | .BUY => some 1
  | .SPLIT => some 2
  | .BONUS => some 2
  | .MERGER => some 3
  | .SELL => some 4
  | .GIFT => some 5
  | .TRANSFER => some 6
  | .CLASS_REORG => none

/-- Priority of an event; the `getD 0` default is only exercised for
`CLASS_REORG`, whose comparator result in JS is `NaN` (sort order across
such events is not defined by the source), so theorems about the ordering
exclude it. -/
def evPrio (e : Event) : Nat := (evOrder e.Typ).getD 0

/-- The comparator of src/Code.js:43 as a total preorder:
`a.Date - b.Date || order[a.Typ] - order[b.Type]`. -/
def evLe (a b : Event) : Prop :=
  a.Date < b.Date ∨ (a.Date = b.Date ∧ evPrio a ≤ evPrio b)

instance : DecidableRel evLe := fun a b => by unfold evLe; exact inferInstance

instance : IsTotal Event evLe := by
  refine ⟨fun a b => ?_⟩
  unfold evLe
  rcases lt_trichotomy a.Date b.Date with h | h | h
  · exact Or.inl (Or.inl h)
  · rcases Nat.le_total (evPrio a) (evPrio b) with hp | hp
    · exact Or.inl (Or.inr ⟨h, hp⟩)
    · exact Or.inr (Or.inr ⟨h.symm, hp⟩)
  · exact Or.inr (Or.inl h)

instance : IsTrans Event evLe := by
  refine ⟨fun a b c hab hbc => ?_⟩
  unfold evLe at *
  rcases hab with h1 | ⟨h1, p1⟩ <;> rcases hbc with h2 | ⟨h2, p2⟩
  · exact Or.inl (h1.trans h2)
  · exact Or.inl (h2 ▸ h1)
  · exact Or.inl (h1 ▸ h2)
  · exact Or.inr ⟨h1.trans h2, p1.trans p2⟩

/-- Normalization (src/Code.js:28-40): trades then actions, each tagged
with its type and date. -/
def normalizeEvents (trades actions : List EvData) : List Event :=
  trades.map (fun t => { Typ := t.Side, Date := t.TradeDate, Data := t }) ++
  actions.map (fun a => { Typ := a.ActionType, Date := a.ActionDate, Data := a })

/-- The `events.sort` of src/Code.js:43 (stable, like the JS sort). -/
def sortEvents (es : List Event) : List Event := List.insertionSort evLe es

/-- Initial engine state (src/Code.js:7-10). -/
def initState : RState := { lots := [], consumes := [], lotSeq := 1, consumeSeq := 1 }

/-- The whole of `rebuildLots` (src/Code.js:3-332): normalize, sort,
replay, and emit the open-lot snapshot plus the consumption ledger.  The
two `writeTable` calls at the end are modelled by the returned pair; an
error propagates and nothing is returned (no output committed). -/
def rebuildLots (secs : List Security) (trades actions : List EvData) :
    Except String (List Lot × List Consume) :=
  (runEvents secs initState (sortEvents (normalizeEvents trades actions))).map
    fun s => (s.lots.filter (fun l => decide (l.OpenQty > 0)), s.consumes)

/-! ## Raw-value model of the BUY rule (for the failure-semantics claim)

`readTable` hands the engine raw cell values; `Number(x)` of a non-numeric
string is `NaN`, which propagates through arithmetic without throwing.
`none` models `NaN`. -/

/-- A raw table cell: a numeric value (including numeric strings, which
`Number` parses), or a non-numeric string. -/
inductive RawVal where
  | num (q : ℚ)
  | text (s : String)
  deriving Repr, DecidableEq

/-- `Number(v)`: `none` is `NaN`. -/
def jsNumber : RawVal → Option ℚ
  | .num q => some q
  | .text _ => none

/-- NaN-propagating multiplication on JS numbers. -/
def nmul : Option ℚ → Option ℚ → Option ℚ
  | some a, some b => some (a * b)
  | _, _ => none

/-- A raw trade row as the BUY rule reads it. -/
structure RawTrade where
  TradeDate : Int := 0
  OwnerId : String := ""
  BrokerId : String := ""
  AccountId : String := ""
  SecurityId : String := ""
  Quantity : RawVal := .num 0
  Price : RawVal := .num 0
  FXRateToINR : RawVal := .num 0
  deriving Repr, DecidableEq

/-- A lot as pushed by the BUY rule over raw values; numeric fields may be
`NaN` (`none`). -/
structure RawLot where
  LotId : Nat
  OwnerId : String
  SecurityId : String
  AssetId : String
  BuyDate : Int
  OpenQty : Option ℚ
  CostNative : Option ℚ
  CostPriceNative : Option ℚ
  CostINR : Option ℚ
  BuyFXRate : Option ℚ
  BrokerId : String
  AccountId : String
  deriving Repr, DecidableEq

/-- The BUY rule (src/Code.js:49-68) over raw cell values: `Number` is
applied to quantity/price/FX *before* the directory lookup; a missing
security throws (models the `TypeError` on line 53), while non-numeric
values flow on as `NaN` without any error. -/
def buyRaw (secs : List Security) (seq : Nat) (d : RawTrade) : Except String RawLot :=
  let qty := jsNumber d.Quantity
  let price := jsNumber d.Price
  let fx := jsNumber d.FXRateToINR
  match secFind secs d.SecurityId with
  | none => .error ("TypeError: security " ++ d.SecurityId ++ " not in directory")
  | some sec =>
    .ok { LotId := seq
          OwnerId := d.OwnerId
          SecurityId := d.SecurityId
          AssetId := sec.AssetId
          BuyDate := d.TradeDate
          OpenQty := qty
          CostNative := nmul qty price
          CostPriceNative := price
          CostINR := nmul (nmul qty price) fx
          BuyFXRate := fx
          BrokerId := d.BrokerId
          AccountId := d.AccountId }

/-- NaN/Infinity-propagating division on JS numbers: `none` models any
non-finite result (`NaN` from a non-numeric operand, `±Infinity`/`NaN`
from a zero divisor). -/
def ndiv : Option ℚ → Option ℚ → Option ℚ
  | some a, some b => if b = 0 then none else some (a / b)
  | _, _ => none

/-- JS `x > 0` on a raw number: false when `x` is `NaN`. -/
def ngt0 : Option ℚ → Bool
  | some q => decide (0 < q)
  | none => false

/-- A raw `LotActions` row as the SPLIT rule reads it. -/
structure RawAction where
  SecurityId : String := ""
  SplitNumerator : RawVal := .num 0
  SplitDenominator : RawVal := .num 0
  deriving Repr, DecidableEq

/-- The per-lot mutation of SPLIT (src/Code.js:176-181) over raw values:
`l.OpenQty *= factor; l.CostPriceNative /= factor`, guarded by
`l.OpenQty > 0` (false for `NaN`). -/
def splitLotRaw (factor : Option ℚ) (secId : String) (l : RawLot) : RawLot :=
  if l.SecurityId = secId ∧ ngt0 l.OpenQty then
    { l with OpenQty := nmul l.OpenQty factor, CostPriceNative := ndiv l.CostPriceNative factor }
  else l

/-- The SPLIT rule (src/Code.js:174-182) over raw cell values: the factor
is `Number(num) / Number(den)` and the rule completes whatever the ratio
cells hold — it throws nothing and consults no directory; a non-numeric
cell makes the factor `NaN`, which flows into the affected lots. -/
def stepSplitRaw (lots : List RawLot) (d : RawAction) : Except String (List RawLot) :=
  let factor := ndiv (jsNumber d.SplitNumerator) (jsNumber d.SplitDenominator)
  .ok (lots.map (splitLotRaw factor d.SecurityId))

/-! ## Shared lemmas about the store helpers -/

/-- Membership in the FIFO queue is membership in the store with the
owner/security/open filter. -/
theorem mem_openLotsBySecurity {lots : List Lot} {o sec : String} {l : Lot} :
    l ∈ openLotsBySecurity lots o sec ↔
      l ∈ lots ∧ l.OwnerId = o ∧ l.SecurityId = sec ∧ 0 < l.OpenQty := by
  unfold openLotsBySecurity
  rw [(List.perm_insertionSort lotLe _).mem_iff, List.mem_filter]
  simp

/-- Every lot of the updated store is an original lot or the value of one
of the recorded updates. -/
theorem applyUpdates_mem {lots : List Lot} {us : List (Nat × Lot)} {l : Lot}
    (h : l ∈ applyUpdates lots us) : l ∈ lots ∨ ∃ p ∈ us, l = p.2 := by
  unfold applyUpdates at h
  rcases List.mem_map.1 h with ⟨a, ha, hl⟩
  cases hf : us.find? (fun u => u.1 == a.LotId) with
  | none => rw [hf] at hl; exact Or.inl (hl ▸ ha)
  | some u =>
    rw [hf] at hl
    exact Or.inr ⟨u, List.mem_of_find?_eq_some hf, hl.symm⟩

/-- Total open quantity of a collection of lots. -/
def openSum (lots : List Lot) : ℚ := (lots.map Lot.OpenQty).sum

theorem openSum_nonneg {lots : List Lot} (h : ∀ l ∈ lots, 0 ≤ l.OpenQty) :
    0 ≤ openSum lots := by
  unfold openSum
  induction lots with
  | nil => simp
  | cons a t ih =>
    simp only [List.map_cons, List.sum_cons]
    have ha := h a (List.mem_cons_self a t)
    have ht := ih (fun l hl => h l (List.mem_cons_of_mem a hl))
    linarith

/-! ## C1: event ordering -/

/-- **C1** The rebuild engine sorts normalized events by ascending date,
breaking ties by the fixed priority table BUY(1), SPLIT(2), BONUS(2),
MERGER(3), SELL(4), GIFT(5), TRANSFER(6): the processed sequence is a
permutation of the input that is `Sorted` under `evLe` (date ascending,
then priority ascending), so in particular no SELL/GIFT/TRANSFER precedes
a same-day SPLIT/BONUS/MERGER.  The hypothesis restricts the statement to
the seven types the source's priority table covers (`CLASS_REORG` has no
entry; its comparator result is `NaN` and the source defines no order for
it). -/
theorem sortEvents_date_priority_order (es : List Event)
    (hcr : ∀ e ∈ es, e.Typ ≠ EType.CLASS_REORG) :
    (sortEvents es).Perm es ∧
    List.Sorted evLe (sortEvents es) ∧
    (sortEvents es).Pairwise (fun a b =>
      a.Date = b.Date →
      (b.Typ = EType.SPLIT ∨ b.Typ = EType.BONUS ∨ b.Typ = EType.MERGER) →
      (a.Typ = EType.SELL ∨ a.Typ = EType.GIFT ∨ a.Typ = EType.TRANSFER) → False) := by
  refine ⟨List.perm_insertionSort evLe es, List.sorted_insertionSort evLe es, ?_⟩
  refine (List.sorted_insertionSort evLe es).imp ?_
  intro a b hab hdate hb ha
  rcases hab with hlt | ⟨_, hle⟩
  · exact absurd hdate (ne_of_lt hlt)
  · have hpa : 4 ≤ evPrio a := by
      rcases ha with h | h | h <;> simp [evPrio, evOrder, h]
    have hpb : evPrio b ≤ 3 := by
      rcases hb with h | h | h <;> simp [evPrio, evOrder, h]
    omega

/-- Witness for C1 at a concrete event stream: a same-day SELL, SPLIT and
BUY plus an earlier-dated TRANSFER. -/
theorem sortEvents_date_priority_order_witness :
    (∀ e ∈ [Event.mk .SELL 5 {}, Event.mk .SPLIT 5 {}, Event.mk .BUY 5 {},
            Event.mk .TRANSFER 2 {}], e.Typ ≠ EType.CLASS_REORG) ∧
    ((sortEvents [Event.mk .SELL 5 {}, Event.mk .SPLIT 5 {}, Event.mk .BUY 5 {},
            Event.mk .TRANSFER 2 {}]).Perm
        [Event.mk .SELL 5 {}, Event.mk .SPLIT 5 {}, Event.mk .BUY 5 {},
            Event.mk .TRANSFER 2 {}] ∧
     List.Sorted evLe (sortEvents [Event.mk .SELL 5 {}, Event.mk .SPLIT 5 {}, Event.mk .BUY 5 {},
            Event.mk .TRANSFER 2 {}]) ∧
     (sortEvents [Event.mk .SELL 5 {}, Event.mk .SPLIT 5 {}, Event.mk .BUY 5 {},
            Event.mk .TRANSFER 2 {}]).Pairwise (fun a b =>
        a.Date = b.Date →
        (b.Typ = EType.SPLIT ∨ b.Typ = EType.BONUS ∨ b.Typ = EType.MERGER) →
        (a.Typ = EType.SELL ∨ a.Typ = EType.GIFT ∨ a.Typ = EType.TRANSFER) → False)) :=
  ⟨by decide, sortEvents_date_priority_order _ (by decide)⟩

/-! ## C3: SPLIT and MERGER conserve aggregate cost -/

/-- **C3** SPLIT and MERGER conserve aggregate cost: SPLIT multiplies each
affected lot's open quantity by numerator/denominator and divides its
per-share cost by the same factor, leaving both aggregate cost fields of
every lot untouched; MERGER sets each affected lot's quantity to
`⌊OpenQty * ratio⌋` leaving both aggregate cost fields of every lot
untouched; hence the sums of aggregate native and reporting cost over the
store (and a fortiori over the affected lots) are unchanged by both. -/
theorem split_merger_cost_conservation :
    (∀ (s : RState) (d : EvData) (s' : RState), stepSplit s d = .ok s' →
      s'.lots = s.lots.map (splitLot (d.SplitNumerator / d.SplitDenominator) d.SecurityId) ∧
      (s'.lots.map Lot.CostNative).sum = (s.lots.map Lot.CostNative).sum ∧
      (s'.lots.map Lot.CostINR).sum = (s.lots.map Lot.CostINR).sum ∧
      ∀ l : Lot,
        (splitLot (d.SplitNumerator / d.SplitDenominator) d.SecurityId l).CostNative
          = l.CostNative ∧
        (splitLot (d.SplitNumerator / d.SplitDenominator) d.SecurityId l).CostINR
          = l.CostINR ∧
        (l.SecurityId = d.SecurityId → 0 < l.OpenQty →
          (splitLot (d.SplitNumerator / d.SplitDenominator) d.SecurityId l).OpenQty
            = l.OpenQty * (d.SplitNumerator / d.SplitDenominator) ∧
          (splitLot (d.SplitNumerator / d.SplitDenominator) d.SecurityId l).CostPriceNative
            = l.CostPriceNative / (d.SplitNumerator / d.SplitDenominator))) ∧
    (∀ (secs : List Security) (s : RState) (d : EvData) (s' : RState) (toRec : Security),
      secFind secs d.SecurityToId = some toRec →
      stepMerger secs s d = .ok s' →
      s'.lots = s.lots.map
        (mergerLot (d.SplitNumerator / d.SplitDenominator) d.SecurityId d.SecurityToId
          toRec.AssetId) ∧
      (s'.lots.map Lot.CostNative).sum = (s.lots.map Lot.CostNative).sum ∧
      (s'.lots.map Lot.CostINR).sum = (s.lots.map Lot.CostINR).sum ∧
      ∀ l : Lot,
        (mergerLot (d.SplitNumerator / d.SplitDenominator) d.SecurityId d.SecurityToId
          toRec.AssetId l).CostNative = l.CostNative ∧
        (mergerLot (d.SplitNumerator / d.SplitDenominator) d.SecurityId d.SecurityToId
          toRec.AssetId l).CostINR = l.CostINR ∧
        (l.SecurityId = d.SecurityId → 0 < l.OpenQty →
          (mergerLot (d.SplitNumerator / d.SplitDenominator) d.SecurityId d.SecurityToId
            toRec.AssetId l).OpenQty
            = ((⌊l.OpenQty * (d.SplitNumerator / d.SplitDenominator)⌋ : ℤ) : ℚ))) := by
  constructor
  · intro s d s' h
    have hcn : ∀ l : Lot,
        (splitLot (d.SplitNumerator / d.SplitDenominator) d.SecurityId l).CostNative
          = l.CostNative := by
      intro l; unfold splitLot; split <;> rfl
    have hci : ∀ l : Lot,
        (splitLot (d.SplitNumerator / d.SplitDenominator) d.SecurityId l).CostINR
          = l.CostINR := by
      intro l; unfold splitLot; split <;> rfl
    have hs : s' = { s with lots := s.lots.map (splitLot (d.SplitNumerator / d.SplitDenominator) d.SecurityId) } := by
      simpa [stepSplit, eq_comm] using h
    subst hs
    refine ⟨rfl, ?_, ?_, ?_⟩
    · simp only [List.map_map]
      exact congrArg List.sum (List.map_congr_left fun l _ => hcn l)
    · simp only [List.map_map]
      exact congrArg List.sum (List.map_congr_left fun l _ => hci l)
    · intro l
      refine ⟨hcn l, hci l, fun h1 h2 => ?_⟩
      unfold splitLot
      rw [if_pos ⟨h1, h2⟩]
      exact ⟨rfl, rfl⟩
  · intro secs s d s' toRec hsec h
    have hcn : ∀ l : Lot,
        (mergerLot (d.SplitNumerator / d.SplitDenominator) d.SecurityId d.SecurityToId
          toRec.AssetId l).CostNative = l.CostNative := by
      intro l; unfold mergerLot; split <;> rfl
    have hci : ∀ l : Lot,
        (mergerLot (d.SplitNumerator / d.SplitDenominator) d.SecurityId d.SecurityToId
          toRec.AssetId l).CostINR = l.CostINR := by
      intro l; unfold mergerLot; split <;> rfl
    have hs : s' = { s with lots := s.lots.map (mergerLot (d.SplitNumerator / d.SplitDenominator) d.SecurityId d.SecurityToId toRec.AssetId) } := by
      simp only [stepMerger, hsec] at h
      simpa [eq_comm] using h
    subst hs
    refine ⟨rfl, ?_, ?_, ?_⟩
    · simp only [List.map_map]
      exact congrArg List.sum (List.map_congr_left fun l _ => hcn l)
    · simp only [List.map_map]
      exact congrArg List.sum (List.map_congr_left fun l _ => hci l)
    · intro l
      refine ⟨hcn l, hci l, fun h1 h2 => ?_⟩
      unfold mergerLot
      rw [if_pos ⟨h1, h2⟩]

/-! ## Concrete fixtures used by witnesses -/

/-- A concrete open lot (60 shares at per-share cost 10). -/
def wLot1 : Lot :=
  { LotId := 1, OwnerId := "O1", SecurityId := "X", AssetId := "A", BuyDate := 1,
    OpenQty := 60, CostNative := 600, CostPriceNative := 10, CostINR := 48000,
    BuyFXRate := 80, BrokerId := "B1", AccountId := "AC1" }

/-- A one-lot store state. -/
def wState1 : RState := { lots := [wLot1], consumes := [], lotSeq := 2, consumeSeq := 1 }

/-- A two-security directory sharing one asset. -/
def wSecs : List Security :=
  [{ SecurityId := "X", AssetId := "A" }, { SecurityId := "Y", AssetId := "A" }]

/-- Witness for C3 at a 2:1 SPLIT and a 1:2 MERGER of the 60-share lot:
both hypotheses are satisfiable and aggregate native cost is conserved. -/
theorem split_merger_cost_conservation_witness :
    (stepSplit wState1 { SecurityId := "X", SplitNumerator := 2, SplitDenominator := 1 }
        = Except.ok { wState1 with lots := [{ wLot1 with OpenQty := 120, CostPriceNative := 5 }] } ∧
      (({ wState1 with lots := [{ wLot1 with OpenQty := 120, CostPriceNative := 5 }] } : RState).lots.map
          Lot.CostNative).sum = (wState1.lots.map Lot.CostNative).sum) ∧
    (secFind wSecs "Y" = some { SecurityId := "Y", AssetId := "A" } ∧
      stepMerger wSecs wState1
          { SecurityId := "X", SecurityToId := "Y", SplitNumerator := 1, SplitDenominator := 2 }
        = Except.ok { wState1 with lots := [{ wLot1 with SecurityId := "Y", OpenQty := 30, CostPriceNative := 20 }] } ∧
      (({ wState1 with lots := [{ wLot1 with SecurityId := "Y", OpenQty := 30, CostPriceNative := 20 }] } : RState).lots.map
          Lot.CostNative).sum = (wState1.lots.map Lot.CostNative).sum) := by
  have h1 : stepSplit wState1 { SecurityId := "X", SplitNumerator := 2, SplitDenominator := 1 }
      = Except.ok { wState1 with lots := [{ wLot1 with OpenQty := 120, CostPriceNative := 5 }] } := by
    simp [stepSplit, wState1, wLot1, splitLot]
    norm_num
  have h2 : secFind wSecs "Y" = some { SecurityId := "Y", AssetId := "A" } := by
    simp [secFind, wSecs]
  have h3 : stepMerger wSecs wState1
      { SecurityId := "X", SecurityToId := "Y", SplitNumerator := 1, SplitDenominator := 2 }
      = Except.ok { wState1 with lots := [{ wLot1 with SecurityId := "Y", OpenQty := 30, CostPriceNative := 20 }] } := by
    simp [stepMerger, h2, wState1, wLot1, mergerLot]
    norm_num
  exact ⟨⟨h1, ((split_merger_cost_conservation.1 _ _ _ h1).2.1)⟩,
         ⟨h2, h3, ((split_merger_cost_conservation.2 wSecs _ _ _ _ h2 h3).2.1)⟩⟩

/-! ## C9: BONUS spawns zero-cost, action-dated lots -/

/-- Every lot produced by the bonus spawning loop has zero cost fields,
acquisition date equal to the action date, and a positive quantity equal
to a processed lot's open quantity times (factor − 1). -/
theorem bonusSpawn_mem (d : EvData) (a : String) (f : ℚ) :
    ∀ (lots : List Lot) (seq : Nat) (nl : Lot), nl ∈ (bonusSpawn d a f lots seq).1 →
      nl.CostNative = 0 ∧ nl.CostPriceNative = 0 ∧ nl.CostINR = 0 ∧
      nl.BuyDate = d.ActionDate ∧ 0 < nl.OpenQty ∧
      ∃ src ∈ lots, nl.OpenQty = src.OpenQty * (f - 1) := by
  intro lots
  induction lots with
  | nil => intro seq nl h; simp [bonusSpawn] at h
  | cons l rest ih =>
    intro seq nl h
    by_cases hq : l.OpenQty * (f - 1) > 0
    · simp only [bonusSpawn, if_pos hq, List.mem_cons] at h
      rcases h with rfl | h'
      · exact ⟨rfl, rfl, rfl, rfl, hq, l, List.mem_cons_self l rest, rfl⟩
      · obtain ⟨c1, c2, c3, c4, c5, src, hsrc, heq⟩ := ih (seq + 1) nl h'
        exact ⟨c1, c2, c3, c4, c5, src, List.mem_cons_of_mem l hsrc, heq⟩
    · simp only [bonusSpawn, if_neg hq] at h
      obtain ⟨c1, c2, c3, c4, c5, src, hsrc, heq⟩ := ih seq nl h
      exact ⟨c1, c2, c3, c4, c5, src, List.mem_cons_of_mem l hsrc, heq⟩

/-- **C9** Every lot created by a BONUS event has aggregate native cost,
aggregate reporting cost and per-share cost all 0 and acquisition date
equal to the action's date; a bonus lot is spawned only with positive
computed quantity `open quantity × (ratio − 1)` of an open lot of the
security, and the pre-existing lots (including the originating ones) are
left entirely unmodified, the new lots being appended after them. -/
theorem bonus_lot_properties (secs : List Security) (s : RState) (d : EvData)
    (s' : RState) (sec : Security)
    (hsec : secFind secs d.SecurityId = some sec)
    (h : stepBonus secs s d = .ok s') :
    s'.lots = s.lots ++
      (bonusSpawn d sec.AssetId (d.SplitNumerator / d.SplitDenominator)
        (s.lots.filter fun l => decide (l.SecurityId = d.SecurityId ∧ l.OpenQty > 0))
        s.lotSeq).1 ∧
    ∀ nl ∈ (bonusSpawn d sec.AssetId (d.SplitNumerator / d.SplitDenominator)
        (s.lots.filter fun l => decide (l.SecurityId = d.SecurityId ∧ l.OpenQty > 0))
        s.lotSeq).1,
      nl.CostNative = 0 ∧ nl.CostPriceNative = 0 ∧ nl.CostINR = 0 ∧
      nl.BuyDate = d.ActionDate ∧ 0 < nl.OpenQty ∧
      ∃ src ∈ s.lots, src.SecurityId = d.SecurityId ∧ 0 < src.OpenQty ∧
        nl.OpenQty = src.OpenQty * (d.SplitNumerator / d.SplitDenominator - 1) := by
  have hlots : s'.lots = s.lots ++
      (bonusSpawn d sec.AssetId (d.SplitNumerator / d.SplitDenominator)
        (s.lots.filter fun l => decide (l.SecurityId = d.SecurityId ∧ l.OpenQty > 0))
        s.lotSeq).1 := by
    simp only [stepBonus, hsec, Except.ok.injEq] at h
    rw [← h]
  refine ⟨hlots, fun nl hnl => ?_⟩
  obtain ⟨c1, c2, c3, c4, c5, src, hsrc, heq⟩ :=
    bonusSpawn_mem d sec.AssetId (d.SplitNumerator / d.SplitDenominator) _ s.lotSeq nl hnl
  obtain ⟨hmem, hprop⟩ := List.mem_filter.1 hsrc
  have hprop' := of_decide_eq_true hprop
  exact ⟨c1, c2, c3, c4, c5, src, hmem, hprop'.1, hprop'.2, heq⟩

/-- Witness for C9: a 2:1 BONUS on the 60-share lot spawns one 60-share
zero-cost lot dated at the action date. -/
theorem bonus_lot_properties_witness :
    secFind [{ SecurityId := "X", AssetId := "A" }] "X"
        = some { SecurityId := "X", AssetId := "A" } ∧
    stepBonus [{ SecurityId := "X", AssetId := "A" }] wState1
        { SecurityId := "X", ActionDate := 10, SplitNumerator := 2, SplitDenominator := 1 }
      = Except.ok { wState1 with
          lots := [wLot1,
            { LotId := 2, OwnerId := "O1", SecurityId := "X", AssetId := "A", BuyDate := 10,
              OpenQty := 60, CostNative := 0, CostPriceNative := 0, CostINR := 0,
              BuyFXRate := 80, BrokerId := "B1", AccountId := "AC1" }],
          lotSeq := 3 } ∧
    ∀ nl ∈ (bonusSpawn
        { SecurityId := "X", ActionDate := 10, SplitNumerator := 2, SplitDenominator := 1 }
        "A" ((2 : ℚ) / 1)
        (wState1.lots.filter fun l => decide (l.SecurityId = "X" ∧ l.OpenQty > 0)) 2).1,
      nl.CostNative = 0 ∧ nl.CostPriceNative = 0 ∧ nl.CostINR = 0 ∧
      nl.BuyDate = (10 : Int) ∧ 0 < nl.OpenQty ∧
      ∃ src ∈ wState1.lots, src.SecurityId = "X" ∧ 0 < src.OpenQty ∧
        nl.OpenQty = src.OpenQty * ((2 : ℚ) / 1 - 1) := by
  have hsec : secFind [{ SecurityId := "X", AssetId := "A" }] "X"
      = some { SecurityId := "X", AssetId := "A" } := by simp [secFind]
  have h : stepBonus [{ SecurityId := "X", AssetId := "A" }] wState1
      { SecurityId := "X", ActionDate := 10, SplitNumerator := 2, SplitDenominator := 1 }
      = Except.ok { wState1 with
          lots := [wLot1,
            { LotId := 2, OwnerId := "O1", SecurityId := "X", AssetId := "A", BuyDate := 10,
              OpenQty := 60, CostNative := 0, CostPriceNative := 0, CostINR := 0,
              BuyFXRate := 80, BrokerId := "B1", AccountId := "AC1" }],
          lotSeq := 3 } := by
    simp [stepBonus, hsec, wState1, wLot1, bonusSpawn]
    norm_num
  refine ⟨hsec, h, ?_⟩
  exact (bonus_lot_properties [{ SecurityId := "X", AssetId := "A" }] wState1
    { SecurityId := "X", ActionDate := 10, SplitNumerator := 2, SplitDenominator := 1 }
    _ { SecurityId := "X", AssetId := "A" } hsec h).2

/-! ## C10: CLASS_REORG redistributes but conserves cost -/

theorem orOne_pos {q : ℚ} (h : 0 ≤ q) : 0 < orOne q := by
  unfold orOne
  split
  · exact one_pos
  · rename_i hne
    exact lt_of_le_of_ne h (Ne.symm hne)

/-- Every lot produced by the class-reorg spawning loop pairs with a
processed source lot, carrying the stated quantity and cost fractions and
inheriting the source's acquisition date. -/
theorem reorgSpawn_mem (toSec toAssetId : String) (qr crn : ℚ) :
    ∀ (lots : List Lot) (seq : Nat) (nl : Lot),
      nl ∈ (reorgSpawn toSec toAssetId qr crn lots seq).1 →
      ∃ src ∈ lots, nl.OpenQty = src.OpenQty * qr ∧
        nl.CostNative = src.CostNative * crn ∧ nl.CostINR = src.CostINR * crn ∧
        nl.BuyDate = src.BuyDate ∧ nl.SecurityId = toSec := by
  intro lots
  induction lots with
  | nil => intro seq nl h; simp [reorgSpawn] at h
  | cons l rest ih =>
    intro seq nl h
    simp only [reorgSpawn, List.mem_cons] at h
    rcases h with rfl | h'
    · exact ⟨l, List.mem_cons_self l rest, rfl, rfl, rfl, rfl, rfl⟩
    · obtain ⟨src, hsrc, hs⟩ := ih (seq + 1) nl h'
      exact ⟨src, List.mem_cons_of_mem l hsrc, hs⟩

/-- **C10** CLASS_REORG conserves the combined cost of each source/target
pair exactly: with ratio `qr = orOne(num)/orOne(den)`, the cost fractions
`qr/(1+qr)` (target) and `1 − qr/(1+qr)` (source) sum to 1, every spawned
target lot's aggregate native and reporting cost plus the mutated source
lot's reduced cost equals the source's pre-event cost, and the
source-lot mutation leaves the open quantity unchanged (for nonnegative
ratio inputs the JS divisor `1+qr` is also nonzero, witnessed by
`0 < 1 + qr`). -/
theorem class_reorg_conserves_cost (secs : List Security) (s : RState) (d : EvData)
    (s' : RState) (fromRec toRec : Security) (qr crn cro : ℚ)
    (hfrom : secFind secs d.SecurityId = some fromRec)
    (hto : secFind secs d.SecurityToId = some toRec)
    (hnum : 0 ≤ d.SplitNumerator) (hden : 0 ≤ d.SplitDenominator)
    (hqr : qr = orOne d.SplitNumerator / orOne d.SplitDenominator)
    (hcrn : crn = qr / (1 + qr))
    (hcro : cro = 1 - crn)
    (h : stepClassReorg secs s d = .ok s') :
    0 < 1 + qr ∧
    crn + cro = 1 ∧
    s'.lots = s.lots.map (reorgMutate fromRec.AssetId d.SecurityId cro) ++
      (reorgSpawn d.SecurityToId toRec.AssetId qr crn
        (s.lots.filter fun l =>
          decide (l.AssetId = fromRec.AssetId ∧ l.SecurityId = d.SecurityId ∧ l.OpenQty > 0))
        s.lotSeq).1 ∧
    (∀ l : Lot, (reorgMutate fromRec.AssetId d.SecurityId cro l).OpenQty = l.OpenQty) ∧
    ∀ nl ∈ (reorgSpawn d.SecurityToId toRec.AssetId qr crn
        (s.lots.filter fun l =>
          decide (l.AssetId = fromRec.AssetId ∧ l.SecurityId = d.SecurityId ∧ l.OpenQty > 0))
        s.lotSeq).1,
      ∃ src ∈ s.lots, src.SecurityId = d.SecurityId ∧ 0 < src.OpenQty ∧
        nl.OpenQty = src.OpenQty * qr ∧ nl.BuyDate = src.BuyDate ∧
        nl.CostNative = src.CostNative * crn ∧ nl.CostINR = src.CostINR * crn ∧
        nl.CostNative + (reorgMutate fromRec.AssetId d.SecurityId cro src).CostNative
          = src.CostNative ∧
        nl.CostINR + (reorgMutate fromRec.AssetId d.SecurityId cro src).CostINR
          = src.CostINR ∧
        (reorgMutate fromRec.AssetId d.SecurityId cro src).OpenQty = src.OpenQty := by
  have hqrpos : 0 < qr := by
    rw [hqr]
    exact div_pos (orOne_pos hnum) (orOne_pos hden)
  have h1qr : 0 < 1 + qr := by linarith
  have hmutq : ∀ l : Lot, (reorgMutate fromRec.AssetId d.SecurityId cro l).OpenQty = l.OpenQty := by
    intro l; unfold reorgMutate; split <;> rfl
  have hlots : s'.lots = s.lots.map (reorgMutate fromRec.AssetId d.SecurityId cro) ++
      (reorgSpawn d.SecurityToId toRec.AssetId qr crn
        (s.lots.filter fun l =>
          decide (l.AssetId = fromRec.AssetId ∧ l.SecurityId = d.SecurityId ∧ l.OpenQty > 0))
        s.lotSeq).1 := by
    subst hcro
    subst hcrn
    subst hqr
    simp only [stepClassReorg, hfrom, hto, Except.ok.injEq] at h
    rw [← h]
  refine ⟨h1qr, by rw [hcro]; ring, hlots, hmutq, fun nl hnl => ?_⟩
  obtain ⟨src, hsrc, q1, q2, q3, q4, q5⟩ :=
    reorgSpawn_mem d.SecurityToId toRec.AssetId qr crn _ s.lotSeq nl hnl
  obtain ⟨hmem, hprop⟩ := List.mem_filter.1 hsrc
  obtain ⟨ha, hsec', hq⟩ := of_decide_eq_true hprop
  have hmutcn : (reorgMutate fromRec.AssetId d.SecurityId cro src).CostNative
      = src.CostNative * cro := by
    unfold reorgMutate
    rw [if_pos ⟨ha, hsec', hq⟩]
  have hmutci : (reorgMutate fromRec.AssetId d.SecurityId cro src).CostINR
      = src.CostINR * cro := by
    unfold reorgMutate
    rw [if_pos ⟨ha, hsec', hq⟩]
  refine ⟨src, hmem, hsec', hq, q1, q4, q2, q3, ?_, ?_, hmutq src⟩
  · rw [q2, hmutcn, hcro]; ring
  · rw [q3, hmutci, hcro]; ring

/-- Witness for C10: a 1:1 CLASS_REORG (ratio 1, cost split 1/2 each) on
the 60-share lot. -/
theorem class_reorg_conserves_cost_witness :
    secFind wSecs "X" = some { SecurityId := "X", AssetId := "A" } ∧
    secFind wSecs "Y" = some { SecurityId := "Y", AssetId := "A" } ∧
    stepClassReorg wSecs wState1
        { SecurityId := "X", SecurityToId := "Y", SplitNumerator := 1, SplitDenominator := 1 }
      = Except.ok { wState1 with
          lots := [{ wLot1 with CostNative := 300, CostINR := 24000, CostPriceNative := 5 },
            { LotId := 2, OwnerId := "O1", SecurityId := "Y", AssetId := "A", BuyDate := 1,
              OpenQty := 60, CostNative := 300, CostPriceNative := 5, CostINR := 24000,
              BuyFXRate := 80, BrokerId := "B1", AccountId := "AC1" }],
          lotSeq := 3 } ∧
    ((1 : ℚ) / 2 + 1 / 2 = 1) := by
  have hfrom : secFind wSecs "X" = some { SecurityId := "X", AssetId := "A" } := by
    simp [secFind, wSecs]
  have hto : secFind wSecs "Y" = some { SecurityId := "Y", AssetId := "A" } := by
    simp [secFind, wSecs]
  have h : stepClassReorg wSecs wState1
      { SecurityId := "X", SecurityToId := "Y", SplitNumerator := 1, SplitDenominator := 1 }
      = Except.ok { wState1 with
          lots := [{ wLot1 with CostNative := 300, CostINR := 24000, CostPriceNative := 5 },
            { LotId := 2, OwnerId := "O1", SecurityId := "Y", AssetId := "A", BuyDate := 1,
              OpenQty := 60, CostNative := 300, CostPriceNative := 5, CostINR := 24000,
              BuyFXRate := 80, BrokerId := "B1", AccountId := "AC1" }],
          lotSeq := 3 } := by
    simp [stepClassReorg, hfrom, hto, wState1, wLot1, reorgSpawn, reorgMutate, orOne]
    norm_num
  have happlied := class_reorg_conserves_cost wSecs wState1
    { SecurityId := "X", SecurityToId := "Y", SplitNumerator := 1, SplitDenominator := 1 }
    _ { SecurityId := "X", AssetId := "A" } { SecurityId := "Y", AssetId := "A" }
    1 (1 / 2) (1 / 2) hfrom hto (by norm_num) (by norm_num)
    (by norm_num [orOne]) (by norm_num) (by norm_num) h
  exact ⟨hfrom, hto, h, happlied.2.1⟩

/-! ## C8: GIFT inherits acquisition date and proportional cost -/

/-- Every lot spawned by the gift loop pairs with a consumed queue lot:
the new lot carries the recipient owner and destination broker/account,
the *source's* acquisition date and per-share cost, and the consumed
fraction of the source's aggregate costs, while the recorded source
update decreases quantity and costs by exactly the moved amounts. -/
theorem giftLoop_mem (d : EvData) (a : String) :
    ∀ (queue : List Lot) (qty : ℚ) (seq : Nat) (nl : Lot),
      nl ∈ (giftLoop d a queue qty seq).2.1 →
      ∃ src ∈ queue,
        nl.OwnerId = d.OwnerToId ∧ nl.BrokerId = d.BrokerToId ∧
        nl.AccountId = d.AccountToId ∧ nl.BuyDate = src.BuyDate ∧
        nl.SecurityId = src.SecurityId ∧ nl.CostPriceNative = src.CostPriceNative ∧
        nl.CostNative = src.CostNative * (nl.OpenQty / src.OpenQty) ∧
        nl.CostINR = src.CostINR * (nl.OpenQty / src.OpenQty) ∧
        (src.LotId, { src with OpenQty := src.OpenQty - nl.OpenQty, CostNative := src.CostNative - nl.CostNative, CostINR := src.CostINR - nl.CostINR }) ∈ (giftLoop d a queue qty seq).1 := by
  intro queue
  induction queue with
  | nil => intro qty seq nl h; simp [giftLoop] at h
  | cons lot rest ih =>
    intro qty seq nl h
    by_cases hq : qty ≤ 0
    · simp [giftLoop, if_pos hq] at h
    · simp only [giftLoop, if_neg hq, List.mem_cons] at h
      rcases h with rfl | h'
      · refine ⟨lot, List.mem_cons_self lot rest, rfl, rfl, rfl, rfl, rfl, rfl, rfl, rfl, ?_⟩
        simp only [giftLoop, if_neg hq]
        exact List.mem_cons_self _ _
      · obtain ⟨src, hsrc, hrest⟩ := ih (qty - min lot.OpenQty qty) (seq + 1) nl h'
        refine ⟨src, List.mem_cons_of_mem lot hsrc, hrest.1, hrest.2.1, hrest.2.2.1,
          hrest.2.2.2.1, hrest.2.2.2.2.1, hrest.2.2.2.2.2.1, hrest.2.2.2.2.2.2.1,
          hrest.2.2.2.2.2.2.2.1, ?_⟩
        simp only [giftLoop, if_neg hq]
        exact List.mem_cons_of_mem _ hrest.2.2.2.2.2.2.2.2

/-- **C8** Every lot created by a GIFT event inherits the source lot's
acquisition date (not the gift date) and per-share cost, is owned by the
gift's recipient with broker/account set to the gift's destination, and
carries the consumed fraction of the source's aggregate native/reporting
costs; the recorded update to the source lot decreases its open quantity
and aggregate costs by exactly the moved amounts. -/
theorem gift_lot_inheritance (secs : List Security) (s : RState) (d : EvData)
    (s' : RState) (sec : Security)
    (hsec : secFind secs d.SecurityId = some sec)
    (h : stepGift secs s d = .ok s') :
    s'.lots = applyUpdates s.lots
        (giftLoop d sec.AssetId (openLotsBySecurity s.lots d.OwnerFromId d.SecurityId)
          d.Quantity s.lotSeq).1 ++
      (giftLoop d sec.AssetId (openLotsBySecurity s.lots d.OwnerFromId d.SecurityId)
          d.Quantity s.lotSeq).2.1 ∧
    ∀ nl ∈ (giftLoop d sec.AssetId (openLotsBySecurity s.lots d.OwnerFromId d.SecurityId)
          d.Quantity s.lotSeq).2.1,
      ∃ src, src ∈ s.lots ∧ src.OwnerId = d.OwnerFromId ∧
        src.SecurityId = d.SecurityId ∧ 0 < src.OpenQty ∧
        nl.OwnerId = d.OwnerToId ∧ nl.BrokerId = d.BrokerToId ∧
        nl.AccountId = d.AccountToId ∧ nl.BuyDate = src.BuyDate ∧
        nl.SecurityId = src.SecurityId ∧
        nl.CostPriceNative = src.CostPriceNative ∧
        nl.CostNative = src.CostNative * (nl.OpenQty / src.OpenQty) ∧
        nl.CostINR = src.CostINR * (nl.OpenQty / src.OpenQty) ∧
        (src.LotId, { src with OpenQty := src.OpenQty - nl.OpenQty, CostNative := src.CostNative - nl.CostNative, CostINR := src.CostINR - nl.CostINR }) ∈
          (giftLoop d sec.AssetId (openLotsBySecurity s.lots d.OwnerFromId d.SecurityId)
            d.Quantity s.lotSeq).1 := by
  have hlots : s'.lots = applyUpdates s.lots
      (giftLoop d sec.AssetId (openLotsBySecurity s.lots d.OwnerFromId d.SecurityId)
        d.Quantity s.lotSeq).1 ++
      (giftLoop d sec.AssetId (openLotsBySecurity s.lots d.OwnerFromId d.SecurityId)
        d.Quantity s.lotSeq).2.1 := by
    simp only [stepGift, hsec, Except.ok.injEq] at h
    rw [← h]
  refine ⟨hlots, fun nl hnl => ?_⟩
  obtain ⟨src, hsrc, props⟩ := giftLoop_mem d sec.AssetId _ d.Quantity s.lotSeq nl hnl
  obtain ⟨hmem, hown, hsec', hq⟩ := mem_openLotsBySecurity.1 hsrc
  exact ⟨src, hmem, hown, hsec', hq, props⟩

/-- Witness for C8: gifting 40 of the 60-share lot from O1 to O2/B2/AC2. -/
theorem gift_lot_inheritance_witness :
    secFind [{ SecurityId := "X", AssetId := "A" }] "X"
        = some { SecurityId := "X", AssetId := "A" } ∧
    stepGift [{ SecurityId := "X", AssetId := "A" }] wState1
        { OwnerFromId := "O1", OwnerToId := "O2", BrokerToId := "B2", AccountToId := "AC2",
          SecurityId := "X", Quantity := 40 }
      = Except.ok { wState1 with
          lots := [{ wLot1 with OpenQty := 20, CostNative := 200, CostINR := 16000 },
            { LotId := 2, OwnerId := "O2", SecurityId := "X", AssetId := "A", BuyDate := 1,
              OpenQty := 40, CostNative := 400, CostPriceNative := 10, CostINR := 32000,
              BuyFXRate := 80, BrokerId := "B2", AccountId := "AC2" }],
          lotSeq := 3 } ∧
    ∀ nl ∈ (giftLoop
        { OwnerFromId := "O1", OwnerToId := "O2", BrokerToId := "B2", AccountToId := "AC2",
          SecurityId := "X", Quantity := 40 } "A"
        (openLotsBySecurity wState1.lots "O1" "X") 40 2).2.1,
      ∃ src, src ∈ wState1.lots ∧ src.OwnerId = "O1" ∧ src.SecurityId = "X" ∧
        0 < src.OpenQty ∧ nl.OwnerId = "O2" ∧ nl.BrokerId = "B2" ∧ nl.AccountId = "AC2" ∧
        nl.BuyDate = src.BuyDate ∧ nl.SecurityId = src.SecurityId ∧
        nl.CostPriceNative = src.CostPriceNative ∧
        nl.CostNative = src.CostNative * (nl.OpenQty / src.OpenQty) ∧
        nl.CostINR = src.CostINR * (nl.OpenQty / src.OpenQty) ∧
        (src.LotId, { src with OpenQty := src.OpenQty - nl.OpenQty, CostNative := src.CostNative - nl.CostNative, CostINR := src.CostINR - nl.CostINR }) ∈
          (giftLoop
            { OwnerFromId := "O1", OwnerToId := "O2", BrokerToId := "B2", AccountToId := "AC2",
              SecurityId := "X", Quantity := 40 } "A"
            (openLotsBySecurity wState1.lots "O1" "X") 40 2).1 := by
  have hsec : secFind [{ SecurityId := "X", AssetId := "A" }] "X"
      = some { SecurityId := "X", AssetId := "A" } := by simp [secFind]
  have h : stepGift [{ SecurityId := "X", AssetId := "A" }] wState1
      { OwnerFromId := "O1", OwnerToId := "O2", BrokerToId := "B2", AccountToId := "AC2",
        SecurityId := "X", Quantity := 40 }
      = Except.ok { wState1 with
          lots := [{ wLot1 with OpenQty := 20, CostNative := 200, CostINR := 16000 },
            { LotId := 2, OwnerId := "O2", SecurityId := "X", AssetId := "A", BuyDate := 1,
              OpenQty := 40, CostNative := 400, CostPriceNative := 10, CostINR := 32000,
              BuyFXRate := 80, BrokerId := "B2", AccountId := "AC2" }],
          lotSeq := 3 } := by
    simp [stepGift, hsec, wState1, wLot1, giftLoop, openLotsBySecurity, applyUpdates,
      List.insertionSort, List.orderedInsert]
    norm_num
  have happ := gift_lot_inheritance [{ SecurityId := "X", AssetId := "A" }] wState1
    { OwnerFromId := "O1", OwnerToId := "O2", BrokerToId := "B2", AccountToId := "AC2",
      SecurityId := "X", Quantity := 40 } _ { SecurityId := "X", AssetId := "A" } hsec h
  exact ⟨hsec, h, happ.2⟩

/-! ## C2: FIFO SELL touches only the earliest lot -/

/-- **C2** In a state whose store holds exactly two open lots of the
owner/security with acquisition dates `d1 < d2`, a SELL for
`0 < q ≤ lot1.OpenQty` reduces only `lot1` (its open quantity and both
aggregate costs drop by exactly the consumed amounts and its per-share
cost field is untouched), leaves `lot2` unchanged, and appends exactly
one consumption record with quantity `q`, the fraction `q / lot1.OpenQty`
of `lot1`'s aggregate native and reporting costs, native proceeds
`q × price` and reporting proceeds `q × price × saleFX`. -/
theorem sell_fifo_two_lots (secs : List Security) (s : RState) (d : EvData)
    (lot1 lot2 : Lot) (sec : Security)
    (hsec : secFind secs d.SecurityId = some sec)
    (hlots : s.lots = [lot1, lot2])
    (hid : lot1.LotId ≠ lot2.LotId)
    (ho1 : lot1.OwnerId = d.OwnerId) (ho2 : lot2.OwnerId = d.OwnerId)
    (hs1 : lot1.SecurityId = d.SecurityId) (hs2 : lot2.SecurityId = d.SecurityId)
    (hq2 : 0 < lot2.OpenQty)
    (hdate : lot1.BuyDate < lot2.BuyDate)
    (hqpos : 0 < d.Quantity) (hqle : d.Quantity ≤ lot1.OpenQty) :
    stepSell secs s d = .ok { s with
      lots := [{ lot1 with OpenQty := lot1.OpenQty - d.Quantity, CostNative := lot1.CostNative - lot1.CostNative * (d.Quantity / lot1.OpenQty), CostINR := lot1.CostINR - lot1.CostINR * (d.Quantity / lot1.OpenQty) }, lot2],
      consumes := s.consumes ++
        [{ ConsumeId := s.consumeSeq, TradeId := d.TradeId, OwnerId := d.OwnerId,
           SecurityId := d.SecurityId, AssetId := sec.AssetId, LotId := lot1.LotId,
           BuyDate := lot1.BuyDate, SellDate := d.TradeDate, Quantity := d.Quantity,
           CostNative := lot1.CostNative * (d.Quantity / lot1.OpenQty),
           CostPriceNative := lot1.CostPriceNative,
           CostINR := lot1.CostINR * (d.Quantity / lot1.OpenQty),
           CostFXRate := lot1.BuyFXRate, SalePriceNative := d.Price,
           SaleFXRate := d.FXRateToINR, ProceedsNative := d.Quantity * d.Price,
           ProceedsINR := d.Quantity * d.Price * d.FXRateToINR }],
      consumeSeq := s.consumeSeq + 1 } := by
  have hq1 : 0 < lot1.OpenQty := lt_of_lt_of_le hqpos hqle
  have hf1 : (decide (lot1.OwnerId = d.OwnerId ∧ lot1.SecurityId = d.SecurityId ∧
      lot1.OpenQty > 0)) = true := by simp [ho1, hs1, hq1]
  have hf2 : (decide (lot2.OwnerId = d.OwnerId ∧ lot2.SecurityId = d.SecurityId ∧
      lot2.OpenQty > 0)) = true := by simp [ho2, hs2, hq2]
  have hopen : openLotsBySecurity s.lots d.OwnerId d.SecurityId = [lot1, lot2] := by
    unfold openLotsBySecurity
    rw [hlots]
    simp only [List.filter_cons, hf1, hf2, if_true, List.filter_nil]
    simp only [List.insertionSort, List.orderedInsert]
    have hll : lotLe lot1 lot2 := le_of_lt hdate
    rw [if_pos hll]
  have hmin : min lot1.OpenQty d.Quantity = d.Quantity := min_eq_right hqle
  have hloop : sellLoop d sec.AssetId [lot1, lot2] d.Quantity s.consumeSeq
      = ([(lot1.LotId, { lot1 with OpenQty := lot1.OpenQty - d.Quantity, CostNative := lot1.CostNative - lot1.CostNative * (d.Quantity / lot1.OpenQty), CostINR := lot1.CostINR - lot1.CostINR * (d.Quantity / lot1.OpenQty) })],
         [{ ConsumeId := s.consumeSeq, TradeId := d.TradeId, OwnerId := d.OwnerId,
            SecurityId := d.SecurityId, AssetId := sec.AssetId, LotId := lot1.LotId,
            BuyDate := lot1.BuyDate, SellDate := d.TradeDate, Quantity := d.Quantity,
            CostNative := lot1.CostNative * (d.Quantity / lot1.OpenQty),
            CostPriceNative := lot1.CostPriceNative,
            CostINR := lot1.CostINR * (d.Quantity / lot1.OpenQty),
            CostFXRate := lot1.BuyFXRate, SalePriceNative := d.Price,
            SaleFXRate := d.FXRateToINR, ProceedsNative := d.Quantity * d.Price,
            ProceedsINR := d.Quantity * d.Price * d.FXRateToINR }],
         s.consumeSeq + 1) := by
    simp only [sellLoop]
    rw [if_neg (not_le.2 hqpos), hmin, sub_self, if_pos (le_refl (0 : ℚ))]
  have hupd : applyUpdates s.lots
      [(lot1.LotId, { lot1 with OpenQty := lot1.OpenQty - d.Quantity, CostNative := lot1.CostNative - lot1.CostNative * (d.Quantity / lot1.OpenQty), CostINR := lot1.CostINR - lot1.CostINR * (d.Quantity / lot1.OpenQty) })]
      = [{ lot1 with OpenQty := lot1.OpenQty - d.Quantity, CostNative := lot1.CostNative - lot1.CostNative * (d.Quantity / lot1.OpenQty), CostINR := lot1.CostINR - lot1.CostINR * (d.Quantity / lot1.OpenQty) }, lot2] := by
    rw [hlots]
    unfold applyUpdates
    simp only [List.map_cons, List.map_nil]
    rw [List.find?_cons_of_pos _ (by simp), List.find?_cons_of_neg _ (by simp [hid]),
      List.find?_nil]
  simp only [stepSell, hsec, hopen, hloop, hupd]

/-- A second, later-dated lot for the FIFO witnesses. -/
def wLotA : Lot :=
  { LotId := 1, OwnerId := "O1", SecurityId := "X", AssetId := "A", BuyDate := 1,
    OpenQty := 100, CostNative := 1000, CostPriceNative := 10, CostINR := 80000,
    BuyFXRate := 80, BrokerId := "B1", AccountId := "AC1" }

def wLotB : Lot :=
  { LotId := 2, OwnerId := "O1", SecurityId := "X", AssetId := "A", BuyDate := 2,
    OpenQty := 50, CostNative := 600, CostPriceNative := 12, CostINR := 48000,
    BuyFXRate := 80, BrokerId := "B1", AccountId := "AC1" }

def wState2 : RState := { lots := [wLotA, wLotB], consumes := [], lotSeq := 3, consumeSeq := 1 }

/-- The spec's SELL scenario payload: sell 40 at price 15, FX 82, day 5. -/
def wSell40 : EvData :=
  { TradeId := "T1", TradeDate := 5, OwnerId := "O1", SecurityId := "X",
    Quantity := 40, Price := 15, FXRateToINR := 82 }

/-- Witness for C2, the spec's scenario: from a 100-share lot (cost 1000
native / 80000 INR) and a later 50-share lot, SELL 40 at 15 (FX 82)
consumes only the first lot: record qty 40, cost 400 / 32000, proceeds
600 / 49200; lot1 left with 60 shares, cost 600 / 48000, per-share 10. -/
theorem sell_fifo_two_lots_witness :
    secFind [{ SecurityId := "X", AssetId := "A" }] "X"
        = some { SecurityId := "X", AssetId := "A" } ∧
    wState2.lots = [wLotA, wLotB] ∧ wLotA.LotId ≠ wLotB.LotId ∧
    wLotA.BuyDate < wLotB.BuyDate ∧ (0 : ℚ) < 40 ∧ (40 : ℚ) ≤ wLotA.OpenQty ∧
    stepSell [{ SecurityId := "X", AssetId := "A" }] wState2 wSell40
      = Except.ok { wState2 with
          lots := [{ wLotA with OpenQty := 60, CostNative := 600, CostINR := 48000 }, wLotB],
          consumes := [{ ConsumeId := 1, TradeId := "T1", OwnerId := "O1", SecurityId := "X",
                         AssetId := "A", LotId := 1, BuyDate := 1, SellDate := 5, Quantity := 40,
                         CostNative := 400, CostPriceNative := 10, CostINR := 32000, CostFXRate := 80,
                         SalePriceNative := 15, SaleFXRate := 82, ProceedsNative := 600,
                         ProceedsINR := 49200 }],
          consumeSeq := 2 } := by
  have happ := sell_fifo_two_lots [{ SecurityId := "X", AssetId := "A" }] wState2 wSell40
    wLotA wLotB { SecurityId := "X", AssetId := "A" }
    (by simp [secFind, wSell40]) rfl (by decide)
    rfl rfl rfl rfl (by norm_num [wLotB]) (by decide) (by norm_num [wSell40])
    (by norm_num [wSell40, wLotA])
  refine ⟨by simp [secFind], rfl, by decide, by decide, by norm_num,
    by norm_num [wLotA], ?_⟩
  rw [happ]
  simp [wState2, wLotA, wLotB, wSell40]
  norm_num

/-! ## C4: open quantity stays nonnegative through the whole replay -/

/-- Numeric well-formedness of one event's payload, per event type: a BUY
has nonnegative quantity; SPLIT and MERGER have a nonnegative numerator
over a positive denominator; CLASS_REORG has nonnegative numerator and
denominator (its `|| 1` fallback tolerates zeros).  These are the data
model's sanity conditions on the input tables; SELL/GIFT/TRANSFER and
BONUS need none, as their loops and guards cap everything. -/
def EvWF (e : Event) : Prop :=
  (e.Typ = EType.BUY → 0 ≤ e.Data.Quantity) ∧
  (e.Typ = EType.SPLIT ∨ e.Typ = EType.MERGER →
    0 ≤ e.Data.SplitNumerator ∧ 0 < e.Data.SplitDenominator) ∧
  (e.Typ = EType.CLASS_REORG → 0 ≤ e.Data.SplitNumerator ∧ 0 ≤ e.Data.SplitDenominator)

instance (e : Event) : Decidable (EvWF e) := by unfold EvWF; exact inferInstance

theorem queue_pos {lots : List Lot} {o sec : String} :
    ∀ l ∈ openLotsBySecurity lots o sec, 0 < l.OpenQty :=
  fun _ h => (mem_openLotsBySecurity.1 h).2.2.2

/-- Every source-lot update recorded by the SELL loop keeps the open
quantity nonnegative (the consumed amount is `min`-capped by it). -/
theorem sellLoop_updates_nonneg (d : EvData) (a : String) :
    ∀ (queue : List Lot) (qty : ℚ) (cseq : Nat) (p : Nat × Lot),
      p ∈ (sellLoop d a queue qty cseq).1 → 0 ≤ p.2.OpenQty := by
  intro queue
  induction queue with
  | nil => intro qty cseq p h; simp [sellLoop] at h
  | cons lot rest ih =>
    intro qty cseq p h
    by_cases hq : qty ≤ 0
    · simp [sellLoop, if_pos hq] at h
    · simp only [sellLoop, if_neg hq, List.mem_cons] at h
      rcases h with rfl | h'
      · have hm := min_le_left lot.OpenQty qty
        simp only
        linarith
      · exact ih _ _ p h'

/-- The GIFT loop keeps all source-lot updates nonnegative and spawns
nonnegative lots, given the queue holds only open lots. -/
theorem giftLoop_nonneg (d : EvData) (a : String) :
    ∀ (queue : List Lot) (qty : ℚ) (seq : Nat), (∀ l ∈ queue, 0 < l.OpenQty) →
      (∀ p ∈ (giftLoop d a queue qty seq).1, 0 ≤ p.2.OpenQty) ∧
      (∀ nl ∈ (giftLoop d a queue qty seq).2.1, 0 ≤ nl.OpenQty) := by
  intro queue
  induction queue with
  | nil => intro qty seq _; constructor <;> intro p h <;> simp [giftLoop] at h
  | cons lot rest ih =>
    intro qty seq hpos
    by_cases hq : qty ≤ 0
    · constructor <;> intro p h <;> simp [giftLoop, if_pos hq] at h
    · have hrest := ih (qty - min lot.OpenQty qty) (seq + 1)
        (fun l hl => hpos l (List.mem_cons_of_mem lot hl))
      have hlot := hpos lot (List.mem_cons_self lot rest)
      have hminpos : 0 < min lot.OpenQty qty := lt_min hlot (lt_of_not_le hq)
      constructor
      · intro p h
        simp only [giftLoop, if_neg hq, List.mem_cons] at h
        rcases h with rfl | h'
        · have hm := min_le_left lot.OpenQty qty
          simp only
          linarith
        · exact hrest.1 p h'
      · intro nl h
        simp only [giftLoop, if_neg hq, List.mem_cons] at h
        rcases h with rfl | h'
        · exact le_of_lt hminpos
        · exact hrest.2 nl h'

/-- The TRANSFER loop keeps all updates nonnegative (a full move keeps
the quantity, a partial move subtracts the capped amount) and spawns
nonnegative lots. -/
theorem transferLoop_nonneg (d : EvData) (a : String) :
    ∀ (queue : List Lot) (qty : ℚ) (seq : Nat), (∀ l ∈ queue, 0 < l.OpenQty) →
      (∀ p ∈ (transferLoop d a queue qty seq).1, 0 ≤ p.2.OpenQty) ∧
      (∀ nl ∈ (transferLoop d a queue qty seq).2.1, 0 ≤ nl.OpenQty) := by
  intro queue
  induction queue with
  | nil => intro qty seq _; constructor <;> intro p h <;> simp [transferLoop] at h
  | cons lot rest ih =>
    intro qty seq hpos
    by_cases hq : qty ≤ 0
    · constructor <;> intro p h <;> simp [transferLoop, if_pos hq] at h
    · have hrest := ih (qty - min lot.OpenQty qty) (seq + 1)
        (fun l hl => hpos l (List.mem_cons_of_mem lot hl))
      have hrest' := ih (qty - min lot.OpenQty qty) seq
        (fun l hl => hpos l (List.mem_cons_of_mem lot hl))
      have hlot := hpos lot (List.mem_cons_self lot rest)
      have hminpos : 0 < min lot.OpenQty qty := lt_min hlot (lt_of_not_le hq)
      by_cases hpart : min lot.OpenQty qty < lot.OpenQty
      · constructor
        · intro p h
          simp only [transferLoop, if_neg hq, if_pos hpart, List.mem_cons] at h
          rcases h with rfl | h'
          · have hm := min_le_left lot.OpenQty qty
            simp only
            linarith
          · exact hrest.1 p h'
        · intro nl h
          simp only [transferLoop, if_neg hq, if_pos hpart, List.mem_cons] at h
          rcases h with rfl | h'
          · exact le_of_lt hminpos
          · exact hrest.2 nl h'
      · constructor
        · intro p h
          simp only [transferLoop, if_neg hq, if_neg hpart, List.mem_cons] at h
          rcases h with rfl | h'
          · simpa using le_of_lt hlot
          · exact hrest'.1 p h'
        · intro nl h
          simp only [transferLoop, if_neg hq, if_neg hpart] at h
          exact hrest'.2 nl h

/-- One step of the engine preserves nonnegativity of every lot's open
quantity, for well-formed payloads. -/
theorem stepEvent_nonneg (secs : List Security) (s s' : RState) (e : Event)
    (hwf : EvWF e) (h : stepEvent secs s e = .ok s')
    (hs : ∀ l ∈ s.lots, 0 ≤ l.OpenQty) : ∀ l ∈ s'.lots, 0 ≤ l.OpenQty := by
  obtain ⟨hwq, hwsm, hwcr⟩ := hwf
  cases he : e.Typ with
  | BUY =>
    simp only [stepEvent, he, stepBuy] at h
    cases hsec : secFind secs e.Data.SecurityId with
    | none => rw [hsec] at h; cases h
    | some sec =>
      rw [hsec] at h
      simp only [Except.ok.injEq] at h
      rw [← h]
      intro l hl
      rcases List.mem_append.1 hl with hl' | hl'
      · exact hs l hl'
      · simp only [List.mem_singleton] at hl'
        rw [hl']
        exact hwq he
  | CLASS_REORG =>
    simp only [stepEvent, he, stepClassReorg] at h
    cases hfrom : secFind secs e.Data.SecurityId with
    | none => rw [hfrom] at h; cases h
    | some fromRec =>
      cases hto : secFind secs e.Data.SecurityToId with
      | none => rw [hfrom, hto] at h; cases h
      | some toRec =>
        rw [hfrom, hto] at h
        simp only [Except.ok.injEq] at h
        rw [← h]
        intro l hl
        rcases List.mem_append.1 hl with hl' | hl'
        · rcases List.mem_map.1 hl' with ⟨a, ha, rfl⟩
          have : (reorgMutate fromRec.AssetId e.Data.SecurityId
              (1 - orOne e.Data.SplitNumerator / orOne e.Data.SplitDenominator /
                (1 + orOne e.Data.SplitNumerator / orOne e.Data.SplitDenominator)) a).OpenQty
              = a.OpenQty := by
            unfold reorgMutate; split <;> rfl
          rw [this]
          exact hs a ha
        · obtain ⟨src, hsrc, hq, _⟩ := reorgSpawn_mem _ _ _ _ _ _ l hl'
          obtain ⟨hmem, hprop⟩ := List.mem_filter.1 hsrc
          have hsp := (of_decide_eq_true hprop).2.2
          have hqr : 0 < orOne e.Data.SplitNumerator / orOne e.Data.SplitDenominator :=
            div_pos (orOne_pos (hwcr he).1) (orOne_pos (hwcr he).2)
          rw [hq]
          exact le_of_lt (mul_pos hsp hqr)
  | SELL =>
    simp only [stepEvent, he, stepSell] at h
    cases hsec : secFind secs e.Data.SecurityId with
    | none => rw [hsec] at h; cases h
    | some sec =>
      rw [hsec] at h
      simp only [Except.ok.injEq] at h
      rw [← h]
      intro l hl
      rcases applyUpdates_mem hl with hl' | ⟨p, hp, rfl⟩
      · exact hs l hl'
      · exact sellLoop_updates_nonneg e.Data sec.AssetId _ _ _ p hp
  | SPLIT =>
    simp only [stepEvent, he, stepSplit, Except.ok.injEq] at h
    rw [← h]
    intro l hl
    rcases List.mem_map.1 hl with ⟨a, ha, rfl⟩
    unfold splitLot
    split
    · have hf : 0 ≤ e.Data.SplitNumerator / e.Data.SplitDenominator :=
        div_nonneg (hwsm (Or.inl he)).1 (le_of_lt (hwsm (Or.inl he)).2)
      exact mul_nonneg (hs a ha) hf
    · exact hs a ha
  | BONUS =>
    simp only [stepEvent, he, stepBonus] at h
    cases hsec : secFind secs e.Data.SecurityId with
    | none => rw [hsec] at h; cases h
    | some sec =>
      rw [hsec] at h
      simp only [Except.ok.injEq] at h
      rw [← h]
      intro l hl
      rcases List.mem_append.1 hl with hl' | hl'
      · exact hs l hl'
      · exact le_of_lt (bonusSpawn_mem _ _ _ _ _ l hl').2.2.2.2.1
  | MERGER =>
    simp only [stepEvent, he, stepMerger] at h
    cases hto : secFind secs e.Data.SecurityToId with
    | none => rw [hto] at h; cases h
    | some toRec =>
      rw [hto] at h
      simp only [Except.ok.injEq] at h
      rw [← h]
      intro l hl
      rcases List.mem_map.1 hl with ⟨a, ha, rfl⟩
      unfold mergerLot
      split
      · rename_i hcond
        have hr : 0 ≤ e.Data.SplitNumerator / e.Data.SplitDenominator :=
          div_nonneg (hwsm (Or.inr he)).1 (le_of_lt (hwsm (Or.inr he)).2)
        have : (0 : ℤ) ≤ ⌊a.OpenQty * (e.Data.SplitNumerator / e.Data.SplitDenominator)⌋ :=
          Int.floor_nonneg.2 (mul_nonneg (le_of_lt hcond.2) hr)
        simp only
        exact_mod_cast this
      · exact hs a ha
  | GIFT =>
    simp only [stepEvent, he, stepGift] at h
    cases hsec : secFind secs e.Data.SecurityId with
    | none => rw [hsec] at h; cases h
    | some sec =>
      rw [hsec] at h
      simp only [Except.ok.injEq] at h
      rw [← h]
      intro l hl
      have hloop := giftLoop_nonneg e.Data sec.AssetId
        (openLotsBySecurity s.lots e.Data.OwnerFromId e.Data.SecurityId)
        e.Data.Quantity s.lotSeq queue_pos
      rcases List.mem_append.1 hl with hl' | hl'
      · rcases applyUpdates_mem hl' with hl'' | ⟨p, hp, rfl⟩
        · exact hs l hl''
        · exact hloop.1 p hp
      · exact hloop.2 l hl'
  | TRANSFER =>
    simp only [stepEvent, he, stepTransfer] at h
    cases hsec : secFind secs e.Data.SecurityId with
    | none => rw [hsec] at h; cases h
    | some sec =>
      rw [hsec] at h
      simp only [Except.ok.injEq] at h
      rw [← h]
      intro l hl
      have hloop := transferLoop_nonneg e.Data sec.AssetId
        (openLotsBySecurity s.lots e.Data.OwnerFromId e.Data.SecurityId)
        e.Data.Quantity s.lotSeq queue_pos
      rcases List.mem_append.1 hl with hl' | hl'
      · rcases applyUpdates_mem hl' with hl'' | ⟨p, hp, rfl⟩
        · exact hs l hl''
        · exact hloop.1 p hp
      · exact hloop.2 l hl'

/-- The replay preserves nonnegativity from any starting state. -/
theorem runEvents_nonneg (secs : List Security) :
    ∀ (es : List Event) (s s' : RState), (∀ e ∈ es, EvWF e) →
      (∀ l ∈ s.lots, 0 ≤ l.OpenQty) → runEvents secs s es = .ok s' →
      ∀ l ∈ s'.lots, 0 ≤ l.OpenQty := by
  intro es
  induction es with
  | nil =>
    intro s s' _ hs h
    simp only [runEvents, Except.ok.injEq] at h
    rw [← h]
    exact hs
  | cons e rest ih =>
    intro s s' hwf hs h
    simp only [runEvents] at h
    cases hst : stepEvent secs s e with
    | error m => rw [hst] at h; cases h
    | ok s1 =>
      rw [hst] at h
      exact ih s1 s' (fun e' he' => hwf e' (List.mem_cons_of_mem e he'))
        (stepEvent_nonneg secs s s1 e (hwf e (List.mem_cons_self e rest)) hst hs) h

/-- **C4** After processing every prefix of a (well-formed) normalized
event sequence starting from the empty initial state, every lot in the
lot store has open quantity ≥ 0. -/
theorem rebuild_quantity_nonneg (secs : List Security) (es preEs : List Event)
    (s' : RState) (hpre : preEs <+: es) (hwf : ∀ e ∈ es, EvWF e)
    (h : runEvents secs initState preEs = .ok s') :
    ∀ l ∈ s'.lots, 0 ≤ l.OpenQty :=
  runEvents_nonneg secs preEs initState s'
    (fun e he => hwf e (hpre.subset he)) (by simp [initState]) h

/-- Fixture events and directory for several witnesses. -/
def wSecX : List Security := [{ SecurityId := "X", AssetId := "A" }]

def wBuyEv : Event :=
  { Typ := .BUY, Date := 1,
    Data := { TradeDate := 1, OwnerId := "O1", SecurityId := "X",
              Quantity := 100, Price := 10, FXRateToINR := 80 } }

def wSellEv : Event :=
  { Typ := .SELL, Date := 2,
    Data := { TradeDate := 2, OwnerId := "O1", SecurityId := "X",
              Quantity := 40, Price := 15, FXRateToINR := 82 } }

/-- The state after replaying just `wBuyEv` from the initial state. -/
def wAfterBuy : RState :=
  { lots := [{ LotId := 1, OwnerId := "O1", SecurityId := "X", AssetId := "A",
               BuyDate := 1, OpenQty := 100, CostNative := 1000, CostPriceNative := 10,
               CostINR := 80000, BuyFXRate := 80, BrokerId := "", AccountId := "" }],
    consumes := [], lotSeq := 2, consumeSeq := 1 }

/-- Witness for C4: the one-event prefix of a two-event stream (a BUY of
100 shares, later a SELL) leaves a store whose single lot has
nonnegative quantity. -/
theorem rebuild_quantity_nonneg_witness :
    [wBuyEv] <+: [wBuyEv, wSellEv] ∧
    (∀ e ∈ [wBuyEv, wSellEv], EvWF e) ∧
    runEvents wSecX initState [wBuyEv] = Except.ok wAfterBuy ∧
    ∀ l ∈ wAfterBuy.lots, 0 ≤ l.OpenQty := by
  have hpre : [wBuyEv] <+: [wBuyEv, wSellEv] := List.prefix_append [wBuyEv] [wSellEv]
  have hwf : ∀ e ∈ [wBuyEv, wSellEv], EvWF e := by decide
  have hrun : runEvents wSecX initState [wBuyEv] = Except.ok wAfterBuy := by
    simp [runEvents, stepEvent, stepBuy, secFind, initState, wSecX, wBuyEv, wAfterBuy]
    norm_num
  exact ⟨hpre, hwf, hrun,
    rebuild_quantity_nonneg wSecX [wBuyEv, wSellEv] [wBuyEv] wAfterBuy hpre hwf hrun⟩

/-! ## C7: over-requested SELL/GIFT/TRANSFER silently truncate -/

theorem openSum_cons (a : Lot) (t : List Lot) :
    openSum (a :: t) = a.OpenQty + openSum t := by
  simp [openSum]

/-- When the requested quantity covers the whole queue, the SELL loop
fully consumes every queue lot (all updates end at quantity 0, one update
per queue lot in order) and the appended consumption records' quantities
sum to the queue's total open quantity — not to the requested amount. -/
theorem sellLoop_drain (d : EvData) (a : String) :
    ∀ (queue : List Lot) (qty : ℚ) (cseq : Nat),
      (∀ l ∈ queue, 0 < l.OpenQty) → openSum queue ≤ qty →
      (∀ p ∈ (sellLoop d a queue qty cseq).1, p.2.OpenQty = 0) ∧
      (sellLoop d a queue qty cseq).1.map Prod.fst = queue.map Lot.LotId ∧
      ((sellLoop d a queue qty cseq).2.1.map Consume.Quantity).sum = openSum queue := by
  intro queue
  induction queue with
  | nil =>
    intro qty cseq _ _
    refine ⟨fun p h => by simp [sellLoop] at h, by simp [sellLoop], by simp [sellLoop, openSum]⟩
  | cons lot rest ih =>
    intro qty cseq hpos hsum
    have hlot := hpos lot (List.mem_cons_self lot rest)
    have hrestpos : ∀ l ∈ rest, 0 < l.OpenQty :=
      fun l hl => hpos l (List.mem_cons_of_mem lot hl)
    have hrestnn : 0 ≤ openSum rest := openSum_nonneg (fun l hl => le_of_lt (hrestpos l hl))
    rw [openSum_cons] at hsum
    have hge : lot.OpenQty ≤ qty := by linarith
    have hq : ¬ qty ≤ 0 := by linarith
    have hmin : min lot.OpenQty qty = lot.OpenQty := min_eq_left hge
    have hih := ih (qty - lot.OpenQty) (cseq + 1) hrestpos (by linarith)
    refine ⟨?_, ?_, ?_⟩
    · intro p h
      simp only [sellLoop, if_neg hq, hmin, List.mem_cons] at h
      rcases h with rfl | h'
      · simp
      · exact (hih.1) p h'
    · simp only [sellLoop, if_neg hq, hmin, List.map_cons]
      rw [hih.2.1]
    · simp only [sellLoop, if_neg hq, hmin, List.map_cons, List.sum_cons]
      rw [hih.2.2, openSum_cons]

/-- When the requested quantity covers the whole queue, the GIFT loop
fully consumes every source lot and the spawned destination lots'
quantities sum to the queue's total open quantity. -/
theorem giftLoop_drain (d : EvData) (a : String) :
    ∀ (queue : List Lot) (qty : ℚ) (seq : Nat),
      (∀ l ∈ queue, 0 < l.OpenQty) → openSum queue ≤ qty →
      (∀ p ∈ (giftLoop d a queue qty seq).1, p.2.OpenQty = 0) ∧
      (giftLoop d a queue qty seq).1.map Prod.fst = queue.map Lot.LotId ∧
      ((giftLoop d a queue qty seq).2.1.map Lot.OpenQty).sum = openSum queue := by
  intro queue
  induction queue with
  | nil =>
    intro qty seq _ _
    refine ⟨fun p h => by simp [giftLoop] at h, by simp [giftLoop], by simp [giftLoop, openSum]⟩
  | cons lot rest ih =>
    intro qty seq hpos hsum
    have hlot := hpos lot (List.mem_cons_self lot rest)
    have hrestpos : ∀ l ∈ rest, 0 < l.OpenQty :=
      fun l hl => hpos l (List.mem_cons_of_mem lot hl)
    have hrestnn : 0 ≤ openSum rest := openSum_nonneg (fun l hl => le_of_lt (hrestpos l hl))
    rw [openSum_cons] at hsum
    have hge : lot.OpenQty ≤ qty := by linarith
    have hq : ¬ qty ≤ 0 := by linarith
    have hmin : min lot.OpenQty qty = lot.OpenQty := min_eq_left hge
    have hih := ih (qty - lot.OpenQty) (seq + 1) hrestpos (by linarith)
    refine ⟨?_, ?_, ?_⟩
    · intro p h
      simp only [giftLoop, if_neg hq, hmin, List.mem_cons] at h
      rcases h with rfl | h'
      · simp
      · exact (hih.1) p h'
    · simp only [giftLoop, if_neg hq, hmin, List.map_cons]
      rw [hih.2.1]
    · simp only [giftLoop, if_neg hq, hmin, List.map_cons, List.sum_cons]
      rw [hih.2.2, openSum_cons]

/-- When the requested quantity covers the whole queue, every TRANSFER
move is a full move: each queue lot is retagged in place to the
destination owner/broker/account, no new lot is spawned and the lot
counter does not advance. -/
theorem transferLoop_drain (d : EvData) (a : String) :
    ∀ (queue : List Lot) (qty : ℚ) (seq : Nat),
      (∀ l ∈ queue, 0 < l.OpenQty) → openSum queue ≤ qty →
      transferLoop d a queue qty seq
        = (queue.map (fun lot => (lot.LotId, { lot with OwnerId := d.OwnerToId, BrokerId := d.BrokerToId, AccountId := d.AccountToId })), [], seq) := by
  intro queue
  induction queue with
  | nil => intro qty seq _ _; simp [transferLoop]
  | cons lot rest ih =>
    intro qty seq hpos hsum
    have hlot := hpos lot (List.mem_cons_self lot rest)
    have hrestpos : ∀ l ∈ rest, 0 < l.OpenQty :=
      fun l hl => hpos l (List.mem_cons_of_mem lot hl)
    have hrestnn : 0 ≤ openSum rest := openSum_nonneg (fun l hl => le_of_lt (hrestpos l hl))
    rw [openSum_cons] at hsum
    have hge : lot.OpenQty ≤ qty := by linarith
    have hq : ¬ qty ≤ 0 := by linarith
    have hmin : min lot.OpenQty qty = lot.OpenQty := min_eq_left hge
    have hnlt : ¬ lot.OpenQty < lot.OpenQty := lt_irrefl _
    simp only [transferLoop, if_neg hq, hmin, if_neg hnlt, List.map_cons]
    rw [ih (qty - lot.OpenQty) seq hrestpos (by linarith)]

/-- Structure of an updated store: every element is an update value or an
original lot none of whose ids are in the update list. -/
theorem applyUpdates_elem (lots : List Lot) (us : List (Nat × Lot)) (l : Lot)
    (h : l ∈ applyUpdates lots us) :
    (∃ p ∈ us, l = p.2) ∨ (l ∈ lots ∧ ∀ p ∈ us, p.1 ≠ l.LotId) := by
  unfold applyUpdates at h
  rcases List.mem_map.1 h with ⟨a, ha, hl⟩
  cases hf : us.find? (fun u => u.1 == a.LotId) with
  | some u =>
    rw [hf] at hl
    exact Or.inl ⟨u, List.mem_of_find?_eq_some hf, hl.symm⟩
  | none =>
    rw [hf] at hl
    subst hl
    refine Or.inr ⟨ha, fun p hp => ?_⟩
    have := List.find?_eq_none.1 hf p hp
    simpa using this

/-- **C7** A SELL, GIFT or TRANSFER whose requested quantity exceeds the
total open quantity of the matching lots completes without error: the
matching lots are consumed until they run out and the unfilled remainder
is silently dropped.  For SELL, every matching lot ends at quantity 0 and
the appended consumption records sum to the previously open total (not
the requested amount); for GIFT likewise, with the spawned recipient lots
summing to the previously open total; for TRANSFER every matching lot is
retagged in place to the destination with no new lot and no record. -/
theorem oversell_silently_truncates :
    (∀ (secs : List Security) (s : RState) (d : EvData) (sec : Security),
      secFind secs d.SecurityId = some sec →
      (∀ l ∈ s.lots, 0 ≤ l.OpenQty) →
      openSum (s.lots.filter fun l =>
        decide (l.OwnerId = d.OwnerId ∧ l.SecurityId = d.SecurityId ∧ l.OpenQty > 0)) < d.Quantity →
      ∃ s', stepSell secs s d = .ok s' ∧
        (∀ l ∈ s'.lots, l.OwnerId = d.OwnerId → l.SecurityId = d.SecurityId → l.OpenQty = 0) ∧
        s'.consumes = s.consumes ++
          (sellLoop d sec.AssetId (openLotsBySecurity s.lots d.OwnerId d.SecurityId)
            d.Quantity s.consumeSeq).2.1 ∧
        ((sellLoop d sec.AssetId (openLotsBySecurity s.lots d.OwnerId d.SecurityId)
            d.Quantity s.consumeSeq).2.1.map Consume.Quantity).sum
          = openSum (s.lots.filter fun l =>
              decide (l.OwnerId = d.OwnerId ∧ l.SecurityId = d.SecurityId ∧ l.OpenQty > 0))) ∧
    (∀ (secs : List Security) (s : RState) (d : EvData) (sec : Security),
      secFind secs d.SecurityId = some sec →
      (∀ l ∈ s.lots, 0 ≤ l.OpenQty) →
      openSum (s.lots.filter fun l =>
        decide (l.OwnerId = d.OwnerFromId ∧ l.SecurityId = d.SecurityId ∧ l.OpenQty > 0)) < d.Quantity →
      ∃ s', stepGift secs s d = .ok s' ∧
        s'.lots = applyUpdates s.lots
            (giftLoop d sec.AssetId (openLotsBySecurity s.lots d.OwnerFromId d.SecurityId)
              d.Quantity s.lotSeq).1 ++
          (giftLoop d sec.AssetId (openLotsBySecurity s.lots d.OwnerFromId d.SecurityId)
            d.Quantity s.lotSeq).2.1 ∧
        (∀ l ∈ applyUpdates s.lots
            (giftLoop d sec.AssetId (openLotsBySecurity s.lots d.OwnerFromId d.SecurityId)
              d.Quantity s.lotSeq).1,
          l.OwnerId = d.OwnerFromId → l.SecurityId = d.SecurityId → l.OpenQty = 0) ∧
        ((giftLoop d sec.AssetId (openLotsBySecurity s.lots d.OwnerFromId d.SecurityId)
            d.Quantity s.lotSeq).2.1.map Lot.OpenQty).sum
          = openSum (s.lots.filter fun l =>
              decide (l.OwnerId = d.OwnerFromId ∧ l.SecurityId = d.SecurityId ∧ l.OpenQty > 0))) ∧
    (∀ (secs : List Security) (s : RState) (d : EvData) (sec : Security),
      secFind secs d.SecurityId = some sec →
      (∀ l ∈ s.lots, 0 ≤ l.OpenQty) →
      openSum (s.lots.filter fun l =>
        decide (l.OwnerId = d.OwnerFromId ∧ l.SecurityId = d.SecurityId ∧ l.OpenQty > 0)) < d.Quantity →
      stepTransfer secs s d = .ok { s with lots := applyUpdates s.lots ((openLotsBySecurity s.lots d.OwnerFromId d.SecurityId).map (fun lot => (lot.LotId, { lot with OwnerId := d.OwnerToId, BrokerId := d.BrokerToId, AccountId := d.AccountToId }))) }) := by
  refine ⟨?_, ?_, ?_⟩
  · intro secs s d sec hsec hnn hover
    have hqperm := List.perm_insertionSort lotLe
      (s.lots.filter fun l =>
        decide (l.OwnerId = d.OwnerId ∧ l.SecurityId = d.SecurityId ∧ l.OpenQty > 0))
    have hqpos : ∀ l ∈ openLotsBySecurity s.lots d.OwnerId d.SecurityId, 0 < l.OpenQty :=
      queue_pos
    have hqsum : openSum (openLotsBySecurity s.lots d.OwnerId d.SecurityId)
        = openSum (s.lots.filter fun l =>
            decide (l.OwnerId = d.OwnerId ∧ l.SecurityId = d.SecurityId ∧ l.OpenQty > 0)) := by
      unfold openSum openLotsBySecurity
      exact (hqperm.map Lot.OpenQty).sum_eq
    have hover' : openSum (openLotsBySecurity s.lots d.OwnerId d.SecurityId) ≤ d.Quantity := by
      rw [hqsum]; exact le_of_lt hover
    have hdrain := sellLoop_drain d sec.AssetId
      (openLotsBySecurity s.lots d.OwnerId d.SecurityId) d.Quantity s.consumeSeq hqpos hover'
    refine ⟨{ s with lots := applyUpdates s.lots (sellLoop d sec.AssetId (openLotsBySecurity s.lots d.OwnerId d.SecurityId) d.Quantity s.consumeSeq).1, consumes := s.consumes ++ (sellLoop d sec.AssetId (openLotsBySecurity s.lots d.OwnerId d.SecurityId) d.Quantity s.consumeSeq).2.1, consumeSeq := (sellLoop d sec.AssetId (openLotsBySecurity s.lots d.OwnerId d.SecurityId) d.Quantity s.consumeSeq).2.2 }, by simp only [stepSell, hsec], ?_, rfl, by rw [hdrain.2.2, hqsum]⟩
    intro l hl ho hsec'
    rcases applyUpdates_elem _ _ _ hl with ⟨p, hp, rfl⟩ | ⟨hmem, hnone⟩
    · exact hdrain.1 p hp
    · by_cases hq : 0 < l.OpenQty
      · exfalso
        have hfil : l ∈ s.lots.filter fun l =>
            decide (l.OwnerId = d.OwnerId ∧ l.SecurityId = d.SecurityId ∧ l.OpenQty > 0) :=
          List.mem_filter.2 ⟨hmem, by simp [ho, hsec', hq]⟩
        have hqueue : l ∈ openLotsBySecurity s.lots d.OwnerId d.SecurityId :=
          hqperm.mem_iff.2 hfil
        have hidin : l.LotId ∈ ((sellLoop d sec.AssetId
            (openLotsBySecurity s.lots d.OwnerId d.SecurityId)
            d.Quantity s.consumeSeq).1.map Prod.fst) := by
          rw [hdrain.2.1]
          exact List.mem_map.2 ⟨l, hqueue, rfl⟩
        rcases List.mem_map.1 hidin with ⟨p, hp, hpe⟩
        exact hnone p hp hpe
      · exact le_antisymm (le_of_not_lt hq) (hnn l hmem)
  · intro secs s d sec hsec hnn hover
    have hqperm := List.perm_insertionSort lotLe
      (s.lots.filter fun l =>
        decide (l.OwnerId = d.OwnerFromId ∧ l.SecurityId = d.SecurityId ∧ l.OpenQty > 0))
    have hqpos : ∀ l ∈ openLotsBySecurity s.lots d.OwnerFromId d.SecurityId, 0 < l.OpenQty :=
      queue_pos
    have hqsum : openSum (openLotsBySecurity s.lots d.OwnerFromId d.SecurityId)
        = openSum (s.lots.filter fun l =>
            decide (l.OwnerId = d.OwnerFromId ∧ l.SecurityId = d.SecurityId ∧ l.OpenQty > 0)) := by
      unfold openSum openLotsBySecurity
      exact (hqperm.map Lot.OpenQty).sum_eq
    have hover' : openSum (openLotsBySecurity s.lots d.OwnerFromId d.SecurityId) ≤ d.Quantity := by
      rw [hqsum]; exact le_of_lt hover
    have hdrain := giftLoop_drain d sec.AssetId
      (openLotsBySecurity s.lots d.OwnerFromId d.SecurityId) d.Quantity s.lotSeq hqpos hover'
    refine ⟨{ s with lots := applyUpdates s.lots (giftLoop d sec.AssetId (openLotsBySecurity s.lots d.OwnerFromId d.SecurityId) d.Quantity s.lotSeq).1 ++ (giftLoop d sec.AssetId (openLotsBySecurity s.lots d.OwnerFromId d.SecurityId) d.Quantity s.lotSeq).2.1, lotSeq := (giftLoop d sec.AssetId (openLotsBySecurity s.lots d.OwnerFromId d.SecurityId) d.Quantity s.lotSeq).2.2 }, by simp only [stepGift, hsec], rfl, ?_, by rw [hdrain.2.2, hqsum]⟩
    intro l hl ho hsec'
    rcases applyUpdates_elem _ _ _ hl with ⟨p, hp, rfl⟩ | ⟨hmem, hnone⟩
    · exact hdrain.1 p hp
    · by_cases hq : 0 < l.OpenQty
      · exfalso
        have hfil : l ∈ s.lots.filter fun l =>
            decide (l.OwnerId = d.OwnerFromId ∧ l.SecurityId = d.SecurityId ∧ l.OpenQty > 0) :=
          List.mem_filter.2 ⟨hmem, by simp [ho, hsec', hq]⟩
        have hqueue : l ∈ openLotsBySecurity s.lots d.OwnerFromId d.SecurityId :=
          hqperm.mem_iff.2 hfil
        have hidin : l.LotId ∈ ((giftLoop d sec.AssetId
            (openLotsBySecurity s.lots d.OwnerFromId d.SecurityId)
            d.Quantity s.lotSeq).1.map Prod.fst) := by
          rw [hdrain.2.1]
          exact List.mem_map.2 ⟨l, hqueue, rfl⟩
        rcases List.mem_map.1 hidin with ⟨p, hp, hpe⟩
        exact hnone p hp hpe
      · exact le_antisymm (le_of_not_lt hq) (hnn l hmem)
  · intro secs s d sec hsec hnn hover
    have hqperm := List.perm_insertionSort lotLe
      (s.lots.filter fun l =>
        decide (l.OwnerId = d.OwnerFromId ∧ l.SecurityId = d.SecurityId ∧ l.OpenQty > 0))
    have hqsum : openSum (openLotsBySecurity s.lots d.OwnerFromId d.SecurityId)
        = openSum (s.lots.filter fun l =>
            decide (l.OwnerId = d.OwnerFromId ∧ l.SecurityId = d.SecurityId ∧ l.OpenQty > 0)) := by
      unfold openSum openLotsBySecurity
      exact (hqperm.map Lot.OpenQty).sum_eq
    have hover' : openSum (openLotsBySecurity s.lots d.OwnerFromId d.SecurityId) ≤ d.Quantity := by
      rw [hqsum]; exact le_of_lt hover
    have hdrain := transferLoop_drain d sec.AssetId
      (openLotsBySecurity s.lots d.OwnerFromId d.SecurityId) d.Quantity s.lotSeq
      queue_pos hover'
    simp only [stepTransfer, hsec, hdrain, List.append_nil]

/-- Over-requesting payloads against the single 60-share lot. -/
def dSell100 : EvData :=
  { TradeId := "T2", TradeDate := 9, OwnerId := "O1", SecurityId := "X",
    Quantity := 100, Price := 15, FXRateToINR := 82 }

def dGift100 : EvData :=
  { OwnerFromId := "O1", OwnerToId := "O2", BrokerToId := "B2", AccountToId := "AC2",
    SecurityId := "X", Quantity := 100 }

/-- Witness for C7: selling / gifting / transferring 100 shares when only
60 are open completes without error; the store's matching lots are fully
drained, the remainder silently dropped. -/
theorem oversell_silently_truncates_witness :
    secFind wSecX "X" = some { SecurityId := "X", AssetId := "A" } ∧
    (∀ l ∈ wState1.lots, 0 ≤ l.OpenQty) ∧
    openSum (wState1.lots.filter fun l =>
      decide (l.OwnerId = dSell100.OwnerId ∧ l.SecurityId = dSell100.SecurityId ∧
        l.OpenQty > 0)) < dSell100.Quantity ∧
    openSum (wState1.lots.filter fun l =>
      decide (l.OwnerId = dGift100.OwnerFromId ∧ l.SecurityId = dGift100.SecurityId ∧
        l.OpenQty > 0)) < dGift100.Quantity ∧
    (∃ s', stepSell wSecX wState1 dSell100 = Except.ok s' ∧
      ∀ l ∈ s'.lots, l.OwnerId = "O1" → l.SecurityId = "X" → l.OpenQty = 0) ∧
    (∃ s', stepGift wSecX wState1 dGift100 = Except.ok s' ∧
      ∀ l ∈ applyUpdates wState1.lots
          (giftLoop dGift100 "A" (openLotsBySecurity wState1.lots "O1" "X") 100 2).1,
        l.OwnerId = "O1" → l.SecurityId = "X" → l.OpenQty = 0) ∧
    stepTransfer wSecX wState1 dGift100
      = Except.ok { wState1 with lots := applyUpdates wState1.lots ((openLotsBySecurity wState1.lots "O1" "X").map (fun lot => (lot.LotId, { lot with OwnerId := "O2", BrokerId := "B2", AccountId := "AC2" }))) } := by
  have hsec : secFind wSecX "X" = some { SecurityId := "X", AssetId := "A" } := by
    simp [secFind, wSecX]
  have hnn : ∀ l ∈ wState1.lots, 0 ≤ l.OpenQty := by
    intro l hl
    simp only [wState1, List.mem_singleton] at hl
    rw [hl]
    norm_num [wLot1]
  have hoverS : openSum (wState1.lots.filter fun l =>
      decide (l.OwnerId = dSell100.OwnerId ∧ l.SecurityId = dSell100.SecurityId ∧
        l.OpenQty > 0)) < dSell100.Quantity := by
    simp [openSum, wState1, wLot1, dSell100]
    norm_num
  have hoverG : openSum (wState1.lots.filter fun l =>
      decide (l.OwnerId = dGift100.OwnerFromId ∧ l.SecurityId = dGift100.SecurityId ∧
        l.OpenQty > 0)) < dGift100.Quantity := by
    simp [openSum, wState1, wLot1, dGift100]
    norm_num
  obtain ⟨sS, hS1, hS2, _, _⟩ := oversell_silently_truncates.1 wSecX wState1 dSell100
    { SecurityId := "X", AssetId := "A" } hsec hnn hoverS
  obtain ⟨sG, hG1, _, hG3, _⟩ := oversell_silently_truncates.2.1 wSecX wState1 dGift100
    { SecurityId := "X", AssetId := "A" } hsec hnn hoverG
  have hT := oversell_silently_truncates.2.2 wSecX wState1 dGift100
    { SecurityId := "X", AssetId := "A" } hsec hnn hoverG
  exact ⟨hsec, hnn, hoverS, hoverG, ⟨sS, hS1, hS2⟩, ⟨sG, hG1, hG3⟩, hT⟩

/-! ## C6: division guards — refuted for MERGER, confirmed elsewhere -/

/-- A whole-share position too small to survive a 1:2 merger ratio. -/
def c6lot : Lot :=
  { LotId := 1, OwnerId := "O1", SecurityId := "W", AssetId := "A", BuyDate := 1,
    OpenQty := 1, CostNative := 100, CostPriceNative := 100, CostINR := 8000,
    BuyFXRate := 80, BrokerId := "B1", AccountId := "AC1" }

def c6d : EvData :=
  { SecurityId := "W", SecurityToId := "C", SplitNumerator := 1, SplitDenominator := 2 }

def c6secs : List Security :=
  [{ SecurityId := "W", AssetId := "A" }, { SecurityId := "C", AssetId := "A" }]

/-- Counterexample to C6: the MERGER per-share recomputation
`l.CostPriceNative = l.CostNative / newQty` is *not* guarded.  A 1-share
lot under a 1:2 merger gets `newQty = ⌊1 × 1/2⌋ = 0`, so the code divides
the aggregate cost by zero (JS produces `Infinity`; the `ℚ` model maps it
to 0) — and the step still completes without error, with the lot left at
quantity 0 and the nonsensical per-share cost. -/
theorem merger_zero_divisor_counterexample :
    mergerHitsZeroDivisor c6d [c6lot] ∧
    stepMerger c6secs { lots := [c6lot], consumes := [], lotSeq := 2, consumeSeq := 1 } c6d
      = Except.ok { lots := [{ c6lot with SecurityId := "C", OpenQty := 0, CostPriceNative := (100 : ℚ) / 0 }], consumes := [], lotSeq := 2, consumeSeq := 1 } := by
  constructor
  · refine ⟨c6lot, List.mem_singleton.2 rfl, rfl, by norm_num [c6lot], ?_⟩
    rw [show c6lot.OpenQty * (c6d.SplitNumerator / c6d.SplitDenominator) = 1 / 2 by
      norm_num [c6lot, c6d]]
    rw [Int.floor_eq_zero_iff]
    constructor <;> norm_num
  · have hsec : secFind c6secs "C" = some { SecurityId := "C", AssetId := "A" } := by
      simp [secFind, c6secs]
    have hfloor : (⌊c6lot.OpenQty * (c6d.SplitNumerator / c6d.SplitDenominator)⌋ : ℤ) = 0 := by
      rw [show c6lot.OpenQty * (c6d.SplitNumerator / c6d.SplitDenominator) = 1 / 2 by
        norm_num [c6lot, c6d]]
      rw [Int.floor_eq_zero_iff]
      constructor <;> norm_num
    simp [stepMerger, hsec, c6d, mergerLot, c6lot, hfloor]
    norm_num

/-- Every lot produced by the class-reorg spawning loop has a *guarded*
per-share cost: when its quantity is not positive the stored per-share
cost is the explicit 0 fallback, never a division by zero. -/
theorem reorgSpawn_guarded (toSec toAssetId : String) (qr crn : ℚ) :
    ∀ (lots : List Lot) (seq : Nat) (nl : Lot),
      nl ∈ (reorgSpawn toSec toAssetId qr crn lots seq).1 → nl.OpenQty ≤ 0 →
      nl.CostPriceNative = 0 := by
  intro lots
  induction lots with
  | nil => intro seq nl h; simp [reorgSpawn] at h
  | cons l rest ih =>
    intro seq nl h hq
    simp only [reorgSpawn, List.mem_cons] at h
    rcases h with rfl | h'
    · simp only at hq ⊢
      rw [if_neg (not_lt.2 hq)]
    · exact ih (seq + 1) nl h' hq

/-- **C6 amended** Zero-open-quantity lots never participate in
fractional cost allocation: the FIFO queue serving SELL/GIFT/TRANSFER
contains only strictly open lots (so each `used/OpenQty` fraction has a
positive divisor), and SPLIT, CLASS_REORG and MERGER leave zero-quantity
lots untouched; CLASS_REORG's per-share recomputations are explicitly
guarded (zero fallback).  But — contrary to the original claim — MERGER's
per-share recomputation is *unguarded*: for every affected lot it divides
the aggregate cost by the floored converted quantity, which can be zero
(see the counterexample). -/
theorem division_guards_amended :
    (∀ (lots : List Lot) (o sec : String) (l : Lot),
      l ∈ openLotsBySecurity lots o sec → 0 < l.OpenQty) ∧
    (∀ (f : ℚ) (sec : String) (l : Lot), l.OpenQty = 0 → splitLot f sec l = l) ∧
    (∀ (fa fs : String) (c : ℚ) (l : Lot), l.OpenQty = 0 → reorgMutate fa fs c l = l) ∧
    (∀ (r : ℚ) (fs ts ta : String) (l : Lot), l.OpenQty = 0 → mergerLot r fs ts ta l = l) ∧
    (∀ (toSec toAssetId : String) (qr crn : ℚ) (lots : List Lot) (seq : Nat) (nl : Lot),
      nl ∈ (reorgSpawn toSec toAssetId qr crn lots seq).1 → nl.OpenQty ≤ 0 →
      nl.CostPriceNative = 0) ∧
    (∀ (r : ℚ) (fs ts ta : String) (l : Lot), l.SecurityId = fs → 0 < l.OpenQty →
      (mergerLot r fs ts ta l).CostPriceNative
        = l.CostNative / ((⌊l.OpenQty * r⌋ : ℤ) : ℚ)) := by
  refine ⟨fun lots o sec l h => (mem_openLotsBySecurity.1 h).2.2.2, ?_, ?_, ?_,
    reorgSpawn_guarded, ?_⟩
  · intro f sec l hq
    unfold splitLot
    rw [if_neg]
    rintro ⟨-, h⟩
    rw [hq] at h
    exact lt_irrefl 0 h
  · intro fa fs c l hq
    unfold reorgMutate
    rw [if_neg]
    rintro ⟨-, -, h⟩
    rw [hq] at h
    exact lt_irrefl 0 h
  · intro r fs ts ta l hq
    unfold mergerLot
    rw [if_neg]
    rintro ⟨-, h⟩
    rw [hq] at h
    exact lt_irrefl 0 h
  · intro r fs ts ta l hsec hq
    unfold mergerLot
    rw [if_pos ⟨hsec, hq⟩]

/-- Witness for the amended C6 at concrete inputs: the 60-share queue lot
is strictly open; a zero-quantity lot passes through SPLIT, CLASS_REORG
and MERGER untouched; and the unguarded MERGER division is exercised by
the counterexample lot. -/
theorem division_guards_amended_witness :
    (wLot1 ∈ openLotsBySecurity [wLot1] "O1" "X" → 0 < wLot1.OpenQty) ∧
    ({ wLot1 with OpenQty := 0 } : Lot).OpenQty = 0 ∧
    splitLot 2 "X" { wLot1 with OpenQty := 0 } = { wLot1 with OpenQty := 0 } ∧
    c6lot.SecurityId = "W" ∧ 0 < c6lot.OpenQty ∧
    (mergerLot (1 / 2) "W" "C" "A" c6lot).CostPriceNative
      = c6lot.CostNative / ((⌊c6lot.OpenQty * (1 / 2)⌋ : ℤ) : ℚ) :=
  ⟨fun h => division_guards_amended.1 [wLot1] "O1" "X" wLot1 h,
   rfl,
   division_guards_amended.2.1 2 "X" { wLot1 with OpenQty := 0 } rfl,
   rfl, by norm_num [c6lot],
   division_guards_amended.2.2.2.2.2 (1 / 2) "W" "C" "A" c6lot rfl (by norm_num [c6lot])⟩

/-! ## C5: failure semantics — missing security vs malformed numerics -/

/-- The step aborted (threw): it is not `ok` for any state. -/
def stepFails (x : Except String RState) : Prop := ∀ s', x ≠ Except.ok s'

def c5secs : List Security := [{ SecurityId := "X", AssetId := "A" }]

/-- A trade whose quantity cell is the non-numeric string `"abc"`. -/
def c5trade : RawTrade :=
  { TradeDate := 1, OwnerId := "O1", BrokerId := "B1", AccountId := "AC1",
    SecurityId := "X", Quantity := RawVal.text "abc",
    Price := RawVal.num 10, FXRateToINR := RawVal.num 80 }

/-- The lot the BUY rule pushes for `c5trade`: quantity and both
aggregate costs are `NaN` (`none`), silently. -/
def c5lot : RawLot :=
  { LotId := 1, OwnerId := "O1", SecurityId := "X", AssetId := "A", BuyDate := 1,
    OpenQty := none, CostNative := none, CostPriceNative := some 10,
    CostINR := none, BuyFXRate := some 80, BrokerId := "B1", AccountId := "AC1" }

/-- A SPLIT naming a security absent from the directory. -/
def c5splitEv : Event :=
  { Typ := .SPLIT, Date := 3,
    Data := { SecurityId := "ZZZ", SplitNumerator := 2, SplitDenominator := 1 } }

/-- Counterexample to C5: (1) a BUY whose quantity is the non-numeric
string `"abc"` does **not** abort — `Number` yields `NaN` and the rule
happily pushes a lot with `NaN` quantity and costs; (2) a SPLIT that
references a security absent from the directory does **not** abort
either, because the SPLIT rule never consults the directory. -/
theorem malformed_input_not_fatal_counterexample :
    buyRaw c5secs 1 c5trade = Except.ok c5lot ∧
    c5lot.OpenQty = none ∧ c5lot.CostNative = none ∧
    secFind c5secs c5splitEv.Data.SecurityId = none ∧
    runEvents c5secs initState [c5splitEv] = Except.ok initState := by
  refine ⟨by rfl, rfl, rfl, by rfl, by rfl⟩

/-- **C5 amended** A rule that resolves a security through the directory
aborts the rebuild when that security is absent — BUY, SELL, BONUS, GIFT
and TRANSFER on their `SecurityId`, MERGER on its *target* `SecurityToId`
only, CLASS_REORG on its source and, when the source resolves, on its
target — an aborted step aborts the whole replay, whose output is only
committed on success (`rebuildLots` propagates the error, so no output is
written).  SPLIT performs no directory lookup and never aborts.
Malformed/non-numeric numeric cells never abort the rules that parse
them: a BUY whose security resolves completes for *any* contents of its
quantity, price and FX cells — the only numeric cells BUY reads —
pushing a lot whose fields are the `Number(...)` values, `NaN` for a
non-numeric cell; and a SPLIT completes for any contents of its two
ratio cells — the only numeric cells SPLIT reads — multiplying each
affected lot's quantity and dividing its per-share cost by the (then
`NaN`) factor; `NaN` propagates through every product and quotient
instead of aborting. -/
theorem missing_security_aborts_amended :
    (∀ (secs : List Security) (s : RState) (d : EvData),
      secFind secs d.SecurityId = none →
      stepFails (stepBuy secs s d) ∧ stepFails (stepSell secs s d) ∧
      stepFails (stepBonus secs s d) ∧ stepFails (stepGift secs s d) ∧
      stepFails (stepTransfer secs s d) ∧ stepFails (stepClassReorg secs s d)) ∧
    (∀ (secs : List Security) (s : RState) (d : EvData),
      secFind secs d.SecurityToId = none → stepFails (stepMerger secs s d)) ∧
    (∀ (secs : List Security) (s : RState) (d : EvData) (fromRec : Security),
      secFind secs d.SecurityId = some fromRec →
      secFind secs d.SecurityToId = none → stepFails (stepClassReorg secs s d)) ∧
    (∀ (s : RState) (d : EvData), ∃ s', stepSplit s d = Except.ok s') ∧
    (∀ (secs : List Security) (s : RState) (e : Event) (es : List Event),
      stepFails (stepEvent secs s e) → stepFails (runEvents secs s (e :: es))) ∧
    (∀ (secs : List Security) (trades actions : List EvData) (m : String),
      runEvents secs initState (sortEvents (normalizeEvents trades actions))
        = Except.error m →
      rebuildLots secs trades actions = Except.error m) ∧
    (∀ (secs : List Security) (seq : Nat) (d : RawTrade) (sec : Security),
      secFind secs d.SecurityId = some sec →
      buyRaw secs seq d = Except.ok
        { LotId := seq, OwnerId := d.OwnerId, SecurityId := d.SecurityId,
          AssetId := sec.AssetId, BuyDate := d.TradeDate,
          OpenQty := jsNumber d.Quantity,
          CostNative := nmul (jsNumber d.Quantity) (jsNumber d.Price),
          CostPriceNative := jsNumber d.Price,
          CostINR := nmul (nmul (jsNumber d.Quantity) (jsNumber d.Price))
            (jsNumber d.FXRateToINR),
          BuyFXRate := jsNumber d.FXRateToINR,
          BrokerId := d.BrokerId, AccountId := d.AccountId }) ∧
    (∀ (str : String), jsNumber (RawVal.text str) = none) ∧
    (∀ (q : Option ℚ), nmul q none = none ∧ nmul none q = none ∧ ndiv q none = none) ∧
    (∀ (lots : List RawLot) (d : RawAction),
      stepSplitRaw lots d = Except.ok (lots.map (splitLotRaw
        (ndiv (jsNumber d.SplitNumerator) (jsNumber d.SplitDenominator)) d.SecurityId))) ∧
    (∀ (factor : Option ℚ) (secId : String) (l : RawLot),
      l.SecurityId = secId → ngt0 l.OpenQty = true →
      splitLotRaw factor secId l
        = { l with OpenQty := nmul l.OpenQty factor, CostPriceNative := ndiv l.CostPriceNative factor }) := by
  refine ⟨?_, ?_, ?_, ?_, ?_, ?_, ?_, ?_, ?_, ?_, ?_⟩
  · intro secs s d hnone
    refine ⟨?_, ?_, ?_, ?_, ?_, ?_⟩ <;>
      · intro s' h
        simp only [stepBuy, stepSell, stepBonus, stepGift, stepTransfer, stepClassReorg,
          hnone] at h
        exact Except.noConfusion h
  · intro secs s d hnone
    intro s' h
    simp only [stepMerger, hnone] at h
    exact Except.noConfusion h
  · intro secs s d fromRec hfrom hto s' h
    simp only [stepClassReorg, hfrom, hto] at h
    exact Except.noConfusion h
  · intro s d
    exact ⟨_, rfl⟩
  · intro secs s e es hfail s' h
    simp only [runEvents] at h
    cases hst : stepEvent secs s e with
    | error m => rw [hst] at h; cases h
    | ok s1 => exact hfail s1 hst
  · intro secs trades actions m h
    unfold rebuildLots
    rw [h]
    rfl
  · intro secs seq d sec hsec
    simp only [buyRaw, hsec]
  · intro str
    rfl
  · intro q
    refine ⟨?_, ?_, ?_⟩ <;> cases q <;> rfl
  · intro lots d
    rfl
  · intro factor secId l hsec hq
    unfold splitLotRaw
    rw [if_pos ⟨hsec, hq⟩]

/-- A numeric-quantity trade whose price and FX cells are non-numeric. -/
def c5tradeBadPrice : RawTrade :=
  { TradeDate := 1, OwnerId := "O1", BrokerId := "B1", AccountId := "AC1",
    SecurityId := "X", Quantity := RawVal.num 5,
    Price := RawVal.text "oops", FXRateToINR := RawVal.text "na" }

/-- A raw open lot with numeric fields. -/
def c5rawLot : RawLot :=
  { LotId := 1, OwnerId := "O1", SecurityId := "X", AssetId := "A", BuyDate := 1,
    OpenQty := some 60, CostNative := some 600, CostPriceNative := some 10,
    CostINR := some 48000, BuyFXRate := some 80, BrokerId := "B1", AccountId := "AC1" }

/-- A SPLIT whose numerator cell is a non-numeric string. -/
def c5rawSplit : RawAction :=
  { SecurityId := "X", SplitNumerator := RawVal.text "2-for-1",
    SplitDenominator := RawVal.num 1 }

/-- Witness for the amended C5: with an empty directory every
security-resolving rule aborts and the whole replay of a stream starting
with such a BUY aborts; CLASS_REORG aborts when only its target is
missing; SPLIT still succeeds; a BUY with non-numeric price and FX cells
completes, its cost fields `NaN`; and a SPLIT with a non-numeric
numerator completes, setting the affected lot's quantity and per-share
cost to `NaN`. -/
theorem missing_security_aborts_amended_witness :
    secFind [] (({ SecurityId := "Q", Quantity := 5 } : EvData).SecurityId) = none ∧
    stepFails (stepBuy [] initState { SecurityId := "Q", Quantity := 5 }) ∧
    stepFails (stepMerger [] initState { SecurityId := "Q", SecurityToId := "R" }) ∧
    secFind c5secs (({ SecurityId := "X", SecurityToId := "R" } : EvData).SecurityId)
      = some { SecurityId := "X", AssetId := "A" } ∧
    secFind c5secs (({ SecurityId := "X", SecurityToId := "R" } : EvData).SecurityToId)
      = none ∧
    stepFails (stepClassReorg c5secs initState { SecurityId := "X", SecurityToId := "R" }) ∧
    (∃ s', stepSplit wState1 { SecurityId := "X", SplitNumerator := 2, SplitDenominator := 1 }
      = Except.ok s') ∧
    stepFails (runEvents [] initState
      [{ Typ := .BUY, Date := 1, Data := { SecurityId := "Q", Quantity := 5 } }]) ∧
    (∃ lot, buyRaw c5secs 1 c5tradeBadPrice = Except.ok lot ∧
      lot.OpenQty = some 5 ∧ lot.CostPriceNative = none ∧ lot.CostNative = none ∧
      lot.CostINR = none ∧ lot.BuyFXRate = none) ∧
    stepSplitRaw [c5rawLot] c5rawSplit
      = Except.ok [{ c5rawLot with OpenQty := none, CostPriceNative := none }] ∧
    splitLotRaw none "X" c5rawLot
      = { c5rawLot with OpenQty := none, CostPriceNative := none } := by
  have hnone : secFind [] (({ SecurityId := "Q", Quantity := 5 } : EvData).SecurityId)
      = none := rfl
  have hnone2 : secFind [] (({ SecurityId := "Q", SecurityToId := "R" } : EvData).SecurityToId)
      = none := rfl
  have hfrom : secFind c5secs (({ SecurityId := "X", SecurityToId := "R" } : EvData).SecurityId)
      = some { SecurityId := "X", AssetId := "A" } := rfl
  have hto : secFind c5secs (({ SecurityId := "X", SecurityToId := "R" } : EvData).SecurityToId)
      = none := rfl
  have hbuy := missing_security_aborts_amended.2.2.2.2.2.2.1 c5secs 1 c5tradeBadPrice
    { SecurityId := "X", AssetId := "A" } (by rfl)
  refine ⟨hnone, (missing_security_aborts_amended.1 [] initState _ hnone).1,
    missing_security_aborts_amended.2.1 [] initState _ hnone2,
    hfrom, hto,
    missing_security_aborts_amended.2.2.1 c5secs initState _ _ hfrom hto,
    missing_security_aborts_amended.2.2.2.1 wState1 _,
    missing_security_aborts_amended.2.2.2.2.1 [] initState
      { Typ := .BUY, Date := 1, Data := { SecurityId := "Q", Quantity := 5 } } []
      (missing_security_aborts_amended.1 [] initState _ hnone).1,
    ⟨_, hbuy, rfl, rfl, rfl, rfl, rfl⟩,
    missing_security_aborts_amended.2.2.2.2.2.2.2.2.2.1 [c5rawLot] c5rawSplit,
    missing_security_aborts_amended.2.2.2.2.2.2.2.2.2.2 none "X" c5rawLot rfl rfl⟩
